import Mathlib

/-!
Verification model of `net_visualizer/main.go` from the ebpf-netflow-tracer
repository.  The Go program reads one text line per observed TCP connection,
parses it with two regular expressions, filters noise, and accumulates three
stores: a node map `PID -> ProcessEndpoints`, an endpoint registry
`NetworkEndpoint -> PID`, and a set of resolved `Edge`s.  Everything below is
a shallow embedding of that code: Go maps become association lists (insertion
order is irrelevant to the properties proved), Go `panic` becomes
`Except.error`, and the regular-expression matching of
`regexp.FindStringSubmatch` is embedded as an explicit leftmost-first
backtracking matcher specialised to the two fixed patterns of the program.
-/

set_option autoImplicit false

namespace NetVisualizer

/-! ## Association lists modelling the Go maps -/

/-- First-match lookup in an association list (models Go map indexing). -/
def alookup {α β : Type} [DecidableEq α] : List (α × β) → α → Option β
  | [], _ => none
  | (k, v) :: t, a => if k = a then some v else alookup t a

/-- Insert-or-replace in an association list (models Go map assignment
`m[k] = v`). -/
def aupsert {α β : Type} [DecidableEq α] : List (α × β) → α → β → List (α × β)
  | [], a, b => [(a, b)]
  | (k, v) :: t, a, b => if k = a then (a, b) :: t else (k, v) :: aupsert t a b

/-! ## Data model (from `main.go`) -/

/-- Direction of an observation, from the Go `Direction` enum
(`Remote2Local` iota 0, `Local2Remote` iota 1). -/
inductive Direction : Type where
  | Remote2Local : Direction
  | Local2Remote : Direction
deriving DecidableEq, Repr

/-- `InputLine` from `main.go`: one parsed line of tcp_tracer output. -/
structure InputLine : Type where
  Dir : Direction
  RemoteIP : String
  RemotePort : Nat
  LocalIP : String
  LocalPort : Nat
  ProcessID : Nat
  ProcessName : String
deriving DecidableEq, Repr

/-- `NetworkEndpoint` from `main.go`: a generic IP:port pair. -/
structure NetworkEndpoint : Type where
  IP : String
  Port : Nat
deriving DecidableEq, Repr

/-- `ProcessEndpoints` from `main.go` without the `dot.Node` handle (the dot
graph is the external rendering collaborator; its node set mirrors the keys
of the node map). -/
structure ProcessEndpoints : Type where
  ProcessID : Nat
  ProcessName : String
  LocalIP : String
  LocalPorts : List Nat
deriving DecidableEq, Repr

/-- `ProcessEndpoint` from `main.go`: one side of an edge. -/
structure ProcessEndpoint : Type where
  PID : Nat
  Port : Nat
deriving DecidableEq, Repr

/-- `Edge` from `main.go`: a uniquely-identified TCP connection between two
processes. -/
structure Edge : Type where
  Source : ProcessEndpoint
  Dest : ProcessEndpoint
deriving DecidableEq, Repr

/-- The three mutable stores of `createGraphFromStdin`:
`nodes`, `knownEndpoints` and `edges`. -/
structure CorrState : Type where
  nodes : List (Nat × ProcessEndpoints)
  knownEndpoints : List (NetworkEndpoint × Nat)
  edges : List Edge
deriving DecidableEq, Repr

/-- The initial (empty) stores of `createGraphFromStdin`. -/
def emptyState : CorrState := ⟨[], [], []⟩

/-! ## The regular-expression matcher

`main.go` matches each line against
`(.+):(\d+)<-(.+):(\d+)\|PID=(\d+) CMD=(.+)` and then
`(.+):(\d+)->(.+):(\d+)\|PID=(\d+) CMD=(.+)` using
`regexp.FindStringSubmatch`.  Go's regexp package uses leftmost-first
(Perl-style) match semantics: the match starts as early as possible and,
at that start, groups are chosen in backtracking order with greedy `+`.
Both patterns are sequences of three kinds of elements, embedded here as
`RElem`; the matcher below implements exactly that backtracking search.
`.` matches any character except a newline; `\d` matches `0`-`9`. -/

/-- One element of the two patterns used by `main.go`: `(.+)`, `(\d+)`,
or a literal string. -/
inductive RElem : Type where
  | anyPlus : RElem
  | digitPlus : RElem
  | lit : List Char → RElem
deriving DecidableEq, Repr

/-- Greedy backtracking loop for a `+` group: try the capture lengths
`n, n-1, ..., 1` in that order, keeping the first length whose capture
satisfies `pred` on every character and whose remainder is accepted by the
continuation `next`. -/
def tryAnyF (pred : Char → Bool) (next : List Char → Option (List (List Char)))
    (cs : List Char) : Nat → Option (List (List Char))
  | 0 => none
  | n + 1 =>
    let g := cs.take (n + 1)
    if g.all pred then
      match next (cs.drop (n + 1)) with
      | some caps => some (g :: caps)
      | none => tryAnyF pred next cs n
    else tryAnyF pred next cs n

/-- Match one pattern element at the head of `cs`, with `next` accepting the
remainder.  A `lit` must be a literal prefix; the `+` groups are greedy. -/
def matchElem (e : RElem) (next : List Char → Option (List (List Char)))
    (cs : List Char) : Option (List (List Char)) :=
  match e with
  | RElem.lit l => if l.isPrefixOf cs then next (cs.drop l.length) else none
  | RElem.anyPlus => tryAnyF (fun c => decide (¬ c = '\n')) next cs cs.length
  | RElem.digitPlus => tryAnyF Char.isDigit next cs cs.length

/-- Match a whole pattern at the start of `cs` in backtracking order,
returning the list of captured groups.  The pattern need not consume the
whole input (`FindStringSubmatch` finds a match anywhere); since both
patterns of `main.go` end in a greedy `(.+)`, the found match in fact
extends to the end of a newline-free line. -/
def matchSeq (pat : List RElem) : List Char → Option (List (List Char)) :=
  List.foldr (fun e next cs => matchElem e next cs) (fun _ => some []) pat

/-- Leftmost search of `FindStringSubmatch`: try to match at position 0,
then at position 1, and so on. -/
def findMatch (pat : List RElem) : List Char → Option (List (List Char))
  | [] => matchSeq pat []
  | c :: rest =>
    match matchSeq pat (c :: rest) with
    | some caps => some caps
    | none => findMatch pat rest

/-- The pattern of `regexLocalToRemote`:
`(.+):(\d+)<-(.+):(\d+)\|PID=(\d+) CMD=(.+)`. -/
def patOut : List RElem :=
  [RElem.anyPlus, RElem.lit [':'], RElem.digitPlus, RElem.lit ['<', '-'],
   RElem.anyPlus, RElem.lit [':'], RElem.digitPlus,
   RElem.lit ['|', 'P', 'I', 'D', '='], RElem.digitPlus,
   RElem.lit [' ', 'C', 'M', 'D', '='], RElem.anyPlus]

/-- The pattern of `regexRemoteToLocal`:
`(.+):(\d+)->(.+):(\d+)\|PID=(\d+) CMD=(.+)`. -/
def patIn : List RElem :=
  [RElem.anyPlus, RElem.lit [':'], RElem.digitPlus, RElem.lit ['-', '>'],
   RElem.anyPlus, RElem.lit [':'], RElem.digitPlus,
   RElem.lit ['|', 'P', 'I', 'D', '='], RElem.digitPlus,
   RElem.lit [' ', 'C', 'M', 'D', '='], RElem.anyPlus]

/-! ## Numeric parsing (`strconv.Atoi` / `strconv.ParseInt` on `\d+`) -/

/-- Decimal value of a digit string. -/
def digitsVal (ds : List Char) : Nat :=
  ds.foldl (fun a c => a * 10 + (c.toNat - 48)) 0

/-- `strconv.Atoi` (= `ParseInt` base 10, 64-bit) restricted to the
all-digit, sign-free strings produced by a `(\d+)` capture: it fails exactly
when the value overflows the signed 64-bit range. -/
def goAtoi (ds : List Char) : Option Nat :=
  if ds = [] then none
  else if digitsVal ds ≤ 9223372036854775807 then some (digitsVal ds) else none

/-! ## `parseLine` -/

/-- Assemble an `InputLine` from the six captures, in the order `main.go`
reads them: `RemoteIP`, `RemotePort`, `LocalIP`, `LocalPort`, `ProcessID`,
`ProcessName`.  Note the Go code stores `matches[1]` in `RemoteIP` and
`matches[3]` in `LocalIP` for both regexes. -/
def buildLine (dir : Direction) : List (List Char) → Option InputLine
  | [rip, rps, lip, lps, pids, nm] =>
    match goAtoi rps, goAtoi lps, goAtoi pids with
    | some rp, some lp, some pid =>
      some ⟨dir, String.mk rip, rp, String.mk lip, lp, pid, String.mk nm⟩
    | _, _, _ => none
  | _ => none

/-- `parseLine` from `main.go`: try `regexLocalToRemote` (direction
`Local2Remote`) first, then `regexRemoteToLocal` (direction `Remote2Local`);
`none` models the error return (the line is skipped). -/
def parseLine (line : String) : Option InputLine :=
  match findMatch patOut line.data with
  | some caps => buildLine Direction.Local2Remote caps
  | none =>
    match findMatch patIn line.data with
    | some caps => buildLine Direction.Remote2Local caps
    | none => none

/-! ## IP parsing (`net.ParseIP`) and the loopback filter

`IsValidLine` calls `net.ParseIP` on both IP strings and tests membership in
the network `127.0.0.0/8` via `net.IPNet.Contains`.  `net.ParseIP` delegates
to `netip.ParseAddr`: it scans for the first of `.`, `:`, `%`; a `.` selects
the IPv4 parser, a `:` the IPv6 parser, a `%` (or no special character at
all) fails.  `net.ParseIP` additionally rejects any address carrying a zone,
so every string containing `%` yields `nil`; the IPv6 embedding below
therefore rejects `%` outright.  `Contains` on the 4-byte network
`127.0.0.0/8` first converts the candidate with `To4`, which succeeds
exactly for IPv4-parsed addresses and IPv4-mapped IPv6 addresses
(`::ffff:a.b.c.d`), and then compares the first byte against 127. -/

/-- The IPv4 dotted-quad parser (`netip.parseIPv4Fields`): four decimal
fields separated by `.`, each 0-255 with no leading zero, nothing else.
`val`, `pos` and `digLen` mirror the Go locals; `acc` collects finished
fields. -/
def parseV4Fields : List Char → Nat → Nat → Nat → List Nat → Option (List Nat)
  | [], val, pos, digLen, acc =>
    if pos < 3 then none
    else if digLen = 0 then none
    else some (acc ++ [val])
  | c :: rest, val, pos, digLen, acc =>
    if c.isDigit then
      if digLen = 1 ∧ val = 0 then none
      else
        let v := val * 10 + (c.toNat - 48)
        if v > 255 then none
        else parseV4Fields rest v pos (digLen + 1) acc
    else if c = '.' then
      if digLen = 0 ∨ rest = [] then none
      else if pos = 3 then none
      else parseV4Fields rest 0 (pos + 1) 0 (acc ++ [val])
    else none

/-- `netip.parseIPv4`: parse a whole string as a dotted quad. -/
def parseV4 (cs : List Char) : Option (List Nat) :=
  parseV4Fields cs 0 0 0 []

/-- One hexadecimal digit. -/
def hexVal (c : Char) : Option Nat :=
  if '0' ≤ c ∧ c ≤ '9' then some (c.toNat - 48)
  else if 'a' ≤ c ∧ c ≤ 'f' then some (c.toNat - 97 + 10)
  else if 'A' ≤ c ∧ c ≤ 'F' then some (c.toNat - 65 + 10)
  else none

/-- Scan one group of at most four hex digits (`netip.parseIPv6`'s inner
loop); returns the accumulated value, the digit count and the rest, failing
on a fifth digit. -/
def scanHexGroup : List Char → Nat → Nat → Option (Nat × Nat × List Char)
  | [], acc, cnt => some (acc, cnt, [])
  | c :: rest, acc, cnt =>
    match hexVal c with
    | none => some (acc, cnt, c :: rest)
    | some v =>
      if cnt ≥ 4 then none
      else scanHexGroup rest (acc * 16 + v) (cnt + 1)

/-- The main loop of `netip.parseIPv6` (no zones: `net.ParseIP` rejects
them).  `acc` holds the bytes produced so far (Go's `ip[:i]`), `ell` the
ellipsis position.  Returns the bytes, the ellipsis position and the
unconsumed rest.  The fuel is the length of the remaining string plus one;
every iteration consumes at least one character, so it never runs out. -/
def v6Loop : Nat → List Char → List Nat → Option Nat →
    Option (List Nat × Option Nat × List Char)
  | 0, _, _, _ => none
  | fuel + 1, s, acc, ell =>
    if acc.length ≥ 16 then some (acc, ell, s)
    else
      match scanHexGroup s 0 0 with
      | none => none
      | some (g, cnt, rest) =>
        if cnt = 0 then none
        else if rest.head? = some '.' then
          if ell.isNone ∧ acc.length ≠ 12 then none
          else if acc.length + 4 > 16 then none
          else
            match parseV4 s with
            | none => none
            | some quad => some (acc ++ quad, ell, [])
        else
          let acc2 := acc ++ [g / 256, g % 256]
          match rest with
          | [] => some (acc2, ell, [])
          | ':' :: rest2 =>
            match rest2 with
            | [] => none
            | ':' :: rest3 =>
              if ell.isSome then none
              else if rest3 = [] then some (acc2, some acc2.length, [])
              else v6Loop fuel rest3 acc2 (some acc2.length)
            | _ => v6Loop fuel rest2 acc2 ell
          | _ => none

/-- Finish `netip.parseIPv6`: reject trailing garbage, expand the ellipsis
to the missing zero bytes (it must stand for at least one group). -/
def finishV6 : Option (List Nat × Option Nat × List Char) → Option (List Nat)
  | none => none
  | some (acc, ell, s) =>
    if s ≠ [] then none
    else if acc.length < 16 then
      match ell with
      | none => none
      | some e => some (acc.take e ++ List.replicate (16 - acc.length) 0 ++ acc.drop e)
    else
      match ell with
      | some _ => none
      | none => some acc

/-- `netip.parseIPv6` as used by `net.ParseIP`: strings containing `%`
always yield `nil` from `ParseIP` (zone handling), so they are rejected
here. -/
def parseV6 (cs : List Char) : Option (List Nat) :=
  if '%' ∈ cs then none
  else
    match cs with
    | ':' :: ':' :: rest =>
      if rest = [] then some (List.replicate 16 0)
      else finishV6 (v6Loop (rest.length + 1) rest [] (some 0))
    | _ => finishV6 (v6Loop (cs.length + 1) cs [] none)

/-- First of `.`, `:`, `%` in the string (`netip.ParseAddr`'s dispatch). -/
def firstSpecial : List Char → Option Char
  | [] => none
  | c :: rest =>
    if c = '.' ∨ c = ':' ∨ c = '%' then some c else firstSpecial rest

/-- `net.ParseIP`, returning the 16-byte form (`As16`); IPv4 strings come
back in IPv4-mapped form, exactly as `net.ParseIP` returns them. -/
def goParseIPBytes (s : String) : Option (List Nat) :=
  match firstSpecial s.data with
  | some '.' =>
    (parseV4 s.data).map
      (fun q => [0, 0, 0, 0, 0, 0, 0, 0, 0, 0, 255, 255] ++ q)
  | some ':' => parseV6 s.data
  | _ => none

/-- `net.IP.To4` on a 16-byte address: succeeds exactly on IPv4-mapped
addresses. -/
def goTo4 (b : List Nat) : Option (List Nat) :=
  if b.take 10 = List.replicate 10 0 ∧ (b.drop 10).take 2 = [255, 255] then
    some (b.drop 12)
  else none

/-- `loopbackNet.Contains(net.ParseIP(s))` with
`loopbackNet = 127.0.0.0/8`: the candidate must convert with `To4` (a
4-byte network never contains a plain IPv6 address, and `Contains` of `nil`
is `false`) and its first byte must equal 127. -/
def loopbackContains (s : String) : Bool :=
  match goParseIPBytes s with
  | none => false
  | some b =>
    match goTo4 b with
    | none => false
    | some q => q.head? = some 127

/-- `IsValidLine` from `main.go`: the noise filter. -/
def IsValidLine (l : InputLine) : Bool :=
  if l.LocalPort = 0 ∨ l.RemotePort = 0 then false
  else if loopbackContains l.LocalIP ∨ loopbackContains l.RemoteIP then false
  else if l.ProcessName = "k3s-server" then false
  else true

/-! ## The correlator step (loop body of `createGraphFromStdin`)

Go `panic` on a data-consistency violation is modelled as `Except.error`;
the error strings name the corresponding panic site. -/

/-- Node-store upsert: the first block of the loop body (`nodes` update with
the three consistency panics). -/
def upsertNode (l : InputLine) (nodes : List (Nat × ProcessEndpoints)) :
    Except String (List (Nat × ProcessEndpoints)) :=
  match alookup nodes l.ProcessID with
  | none =>
    Except.ok (aupsert nodes l.ProcessID
      ⟨l.ProcessID, l.ProcessName, l.LocalIP, [l.LocalPort]⟩)
  | some n =>
    if n.LocalIP ≠ l.LocalIP then Except.error ("assumption not respected")
    else if n.ProcessID ≠ l.ProcessID then Except.error ("logical bug node")
    else if n.ProcessName ≠ l.ProcessName then Except.error ("PID reuse")
    else
      let n2 :=
        if l.LocalPort ∈ n.LocalPorts then n
        else ⟨n.ProcessID, n.ProcessName, n.LocalIP, n.LocalPorts ++ [l.LocalPort]⟩
      Except.ok (aupsert nodes l.ProcessID n2)

/-- Endpoint-registry step: register the local endpoint under the line's
PID, with the conflicting-owner panic. -/
def registerLocalEp (l : InputLine) (ke : List (NetworkEndpoint × Nat)) :
    Except String (List (NetworkEndpoint × Nat)) :=
  match alookup ke ⟨l.LocalIP, l.LocalPort⟩ with
  | none => Except.ok (aupsert ke ⟨l.LocalIP, l.LocalPort⟩ l.ProcessID)
  | some e =>
    if e ≠ l.ProcessID then Except.error ("logical bug endpoint")
    else Except.ok ke

/-- The directed edge built for a resolved observation: the Go code first
builds Source = (local PID, local port), Dest = (remote PID, remote port)
and then swaps the two for a `Remote2Local` observation. -/
def mkEdge (l : InputLine) (remotePID : Nat) : Edge :=
  if l.Dir = Direction.Remote2Local then
    ⟨⟨remotePID, l.RemotePort⟩, ⟨l.ProcessID, l.LocalPort⟩⟩
  else ⟨⟨l.ProcessID, l.LocalPort⟩, ⟨remotePID, l.RemotePort⟩⟩

/-- Edge resolution: look the remote endpoint up in the registry; when
found, build the directed pair and add it to the edge set if absent. -/
def resolveEdge (l : InputLine) (ke : List (NetworkEndpoint × Nat))
    (edges : List Edge) : List Edge :=
  match alookup ke ⟨l.RemoteIP, l.RemotePort⟩ with
  | none => edges
  | some remotePID =>
    if mkEdge l remotePID ∈ edges then edges else edges ++ [mkEdge l remotePID]

/-- One full iteration of the loop body of `createGraphFromStdin` on an
already parsed and validated line. -/
def step (l : InputLine) (s : CorrState) : Except String CorrState :=
  match upsertNode l s.nodes with
  | Except.error e => Except.error e
  | Except.ok nodes2 =>
    match registerLocalEp l s.knownEndpoints with
    | Except.error e => Except.error e
    | Except.ok ke2 => Except.ok ⟨nodes2, ke2, resolveEdge l ke2 s.edges⟩

/-- Process one parsed line: skip it when the noise filter rejects it. -/
def processParsed (l : InputLine) (s : CorrState) : Except String CorrState :=
  if IsValidLine l then step l s else Except.ok s

/-- Process one raw text line: parse (skipping on failure), validate, step. -/
def processText (line : String) (s : CorrState) : Except String CorrState :=
  match parseLine line with
  | none => Except.ok s
  | some l => processParsed l s

/-- Process a list of raw text lines in order, propagating a panic. -/
def processAll : List String → CorrState → Except String CorrState
  | [], s => Except.ok s
  | line :: rest, s =>
    match processText line s with
    | Except.error e => Except.error e
    | Except.ok s2 => processAll rest s2

/-- Process a list of parsed observations in order, propagating a panic. -/
def processObsList : List InputLine → CorrState → Except String CorrState
  | [], s => Except.ok s
  | l :: rest, s =>
    match processParsed l s with
    | Except.error e => Except.error e
    | Except.ok s2 => processObsList rest s2

/-! ## Association-list lemmas -/

theorem alookup_aupsert_self {α β : Type} [DecidableEq α]
    (m : List (α × β)) (k : α) (v : β) : alookup (aupsert m k v) k = some v := by
  induction m with
  | nil => simp [alookup, aupsert]
  | cons p t ih =>
    obtain ⟨k', v'⟩ := p
    by_cases h : k' = k
    · simp [alookup, aupsert, h]
    · simp [alookup, aupsert, h, ih]

theorem alookup_aupsert_ne {α β : Type} [DecidableEq α]
    (m : List (α × β)) (k k' : α) (v : β) (h : k ≠ k') :
    alookup (aupsert m k v) k' = alookup m k' := by
  induction m with
  | nil => simp [alookup, aupsert, h]
  | cons p t ih =>
    obtain ⟨k0, v0⟩ := p
    by_cases h0 : k0 = k
    · subst h0
      simp [alookup, aupsert, h]
    · simp [alookup, aupsert, h0, ih]

theorem aupsert_of_alookup_eq {α β : Type} [DecidableEq α]
    (m : List (α × β)) (k : α) (v : β) (h : alookup m k = some v) :
    aupsert m k v = m := by
  induction m with
  | nil => simp [alookup] at h
  | cons p t ih =>
    obtain ⟨k0, v0⟩ := p
    by_cases h0 : k0 = k
    · subst h0
      simp [alookup] at h
      simp [aupsert, h]
    · simp [alookup, h0] at h
      simp [aupsert, h0, ih h]

theorem alookup_aupsert_isSome {α β : Type} [DecidableEq α]
    (m : List (α × β)) (k k' : α) (v : β)
    (h : (alookup m k').isSome) : (alookup (aupsert m k v) k').isSome := by
  by_cases hk : k = k'
  · subst hk
    simp [alookup_aupsert_self]
  · rwa [alookup_aupsert_ne m k k' v hk]

/-! ## Claim C6: the noise filter produces no state change -/

/-- Claim C6: any parsed observation with a zero port on either side, a
loopback IP on either side (as decided by the program's
`127.0.0.0/8`-contains test), or the denylisted process name
(`"k3s-server"`) is skipped: processing it leaves the node store, the
endpoint registry and the edge set unchanged. -/
theorem claim6_noise_filter (l : InputLine) (s : CorrState)
    (h : l.LocalPort = 0 ∨ l.RemotePort = 0 ∨
      loopbackContains l.LocalIP = true ∨ loopbackContains l.RemoteIP = true ∨
      l.ProcessName = "k3s-server") :
    processParsed l s = Except.ok s := by
  have hval : IsValidLine l = false := by
    unfold IsValidLine
    rcases h with h | h | h | h | h <;> simp [h]
  simp [processParsed, hval]

/-- Witness for C6: a concrete observation with loopback remote IP
`127.0.0.1` is processed without any change to the empty stores. -/
theorem claim6_witness :
    processParsed ⟨Direction.Remote2Local, "127.0.0.1", 80, "10.0.0.2", 90, 5, "x"⟩
      emptyState = Except.ok emptyState :=
  claim6_noise_filter _ _ (Or.inr (Or.inr (Or.inr (Or.inl (by decide)))))

/-! ## Claim C1: the worked example of the specification -/

/-- The two example lines of the specification, in order. -/
def c1Lines : List String :=
  ["10.0.0.5:8080<-10.0.0.9:443|PID=100 CMD=svcA",
   "10.0.0.9:443->10.0.0.5:8080|PID=200 CMD=svcB"]

/-- The stores actually produced by feeding `c1Lines` to the program. -/
def c1State : CorrState :=
  ⟨[(100, ⟨100, "svcA", "10.0.0.9", [443]⟩),
    (200, ⟨200, "svcB", "10.0.0.5", [8080]⟩)],
   [(⟨"10.0.0.9", 443⟩, 100), (⟨"10.0.0.5", 8080⟩, 200)],
   [⟨⟨100, 443⟩, ⟨200, 8080⟩⟩]⟩

/-- Claim C1, counterexample: on the two example lines the claim's expected
result is wrong.  The run succeeds, but the node for pid 100 carries local
IP `10.0.0.9` (not `10.0.0.5` as claimed: `parseLine` reads the first pair
of a `<-` line as the remote endpoint), and the claimed edge from
(200, 443) to (100, 8080) is not in the edge set. -/
theorem claim1_counterexample :
    processAll c1Lines emptyState = Except.ok c1State ∧
    (alookup c1State.nodes 100).map (fun n => n.LocalIP) = some ("10.0.0.9") ∧
    ("10.0.0.9" : String) ≠ ("10.0.0.5" : String) ∧
    ¬ (Edge.mk ⟨200, 443⟩ ⟨100, 8080⟩ ∈ c1State.edges) := by
  refine ⟨rfl, rfl, ?_, ?_⟩ <;> decide

/-- Claim C1, amended: feeding the two example lines (in that order,
starting from empty state) yields exactly two nodes — pid 100 labelled
"svcA" with local IP `10.0.0.9` and port set containing 443, and pid 200
labelled "svcB" with local IP `10.0.0.5` and port set containing 8080 —
and exactly one directed edge, from svcA's endpoint (pid 100, port 443) to
svcB's endpoint (pid 200, port 8080). -/
theorem claim1_amended :
    processAll c1Lines emptyState = Except.ok c1State ∧
    c1State.nodes.map Prod.fst = [100, 200] ∧
    alookup c1State.nodes 100 = some ⟨100, "svcA", "10.0.0.9", [443]⟩ ∧
    alookup c1State.nodes 200 = some ⟨200, "svcB", "10.0.0.5", [8080]⟩ ∧
    c1State.edges = [⟨⟨100, 443⟩, ⟨200, 8080⟩⟩] := by
  exact ⟨rfl, rfl, rfl, rfl, rfl⟩

/-! ## Equation lemmas and facts about one correlator step -/

theorem upsertNode_new (l : InputLine) (nodes : List (Nat × ProcessEndpoints))
    (hl : alookup nodes l.ProcessID = none) :
    upsertNode l nodes = Except.ok (aupsert nodes l.ProcessID
      ⟨l.ProcessID, l.ProcessName, l.LocalIP, [l.LocalPort]⟩) := by
  unfold upsertNode
  rw [hl]

theorem upsertNode_known (l : InputLine) (nodes : List (Nat × ProcessEndpoints))
    (n : ProcessEndpoints) (hl : alookup nodes l.ProcessID = some n) :
    upsertNode l nodes =
      (if n.LocalIP ≠ l.LocalIP then Except.error ("assumption not respected")
       else if n.ProcessID ≠ l.ProcessID then Except.error ("logical bug node")
       else if n.ProcessName ≠ l.ProcessName then Except.error ("PID reuse")
       else Except.ok (aupsert nodes l.ProcessID
         (if l.LocalPort ∈ n.LocalPorts then n
          else ⟨n.ProcessID, n.ProcessName, n.LocalIP,
            n.LocalPorts ++ [l.LocalPort]⟩))) := by
  unfold upsertNode
  rw [hl]

theorem registerLocalEp_new (l : InputLine) (ke : List (NetworkEndpoint × Nat))
    (hl : alookup ke ⟨l.LocalIP, l.LocalPort⟩ = none) :
    registerLocalEp l ke =
      Except.ok (aupsert ke ⟨l.LocalIP, l.LocalPort⟩ l.ProcessID) := by
  unfold registerLocalEp
  rw [hl]

theorem registerLocalEp_known (l : InputLine) (ke : List (NetworkEndpoint × Nat))
    (e : Nat) (hl : alookup ke ⟨l.LocalIP, l.LocalPort⟩ = some e) :
    registerLocalEp l ke =
      (if e ≠ l.ProcessID then Except.error ("logical bug endpoint")
       else Except.ok ke) := by
  unfold registerLocalEp
  rw [hl]

theorem resolveEdge_none (l : InputLine) (ke : List (NetworkEndpoint × Nat))
    (es : List Edge) (hl : alookup ke ⟨l.RemoteIP, l.RemotePort⟩ = none) :
    resolveEdge l ke es = es := by
  unfold resolveEdge
  rw [hl]

theorem resolveEdge_some (l : InputLine) (ke : List (NetworkEndpoint × Nat))
    (es : List Edge) (rpid : Nat)
    (hl : alookup ke ⟨l.RemoteIP, l.RemotePort⟩ = some rpid) :
    resolveEdge l ke es =
      (if mkEdge l rpid ∈ es then es else es ++ [mkEdge l rpid]) := by
  unfold resolveEdge
  rw [hl]

theorem step_error_upsert (l : InputLine) (s : CorrState) (e : String)
    (h : upsertNode l s.nodes = Except.error e) : step l s = Except.error e := by
  unfold step
  rw [h]

theorem step_error_register (l : InputLine) (s : CorrState)
    (nodes2 : List (Nat × ProcessEndpoints)) (e : String)
    (h1 : upsertNode l s.nodes = Except.ok nodes2)
    (h2 : registerLocalEp l s.knownEndpoints = Except.error e) :
    step l s = Except.error e := by
  unfold step
  rw [h1, h2]

theorem step_ok_eq (l : InputLine) (s : CorrState)
    (nodes2 : List (Nat × ProcessEndpoints)) (ke2 : List (NetworkEndpoint × Nat))
    (h1 : upsertNode l s.nodes = Except.ok nodes2)
    (h2 : registerLocalEp l s.knownEndpoints = Except.ok ke2) :
    step l s = Except.ok ⟨nodes2, ke2, resolveEdge l ke2 s.edges⟩ := by
  unfold step
  rw [h1, h2]

theorem step_decompose (l : InputLine) (s s' : CorrState)
    (h : step l s = Except.ok s') :
    ∃ nodes2 ke2, upsertNode l s.nodes = Except.ok nodes2 ∧
      registerLocalEp l s.knownEndpoints = Except.ok ke2 ∧
      s' = ⟨nodes2, ke2, resolveEdge l ke2 s.edges⟩ := by
  cases hn : upsertNode l s.nodes with
  | error e => rw [step_error_upsert l s e hn] at h; cases h
  | ok nodes2 =>
    cases hk : registerLocalEp l s.knownEndpoints with
    | error e => rw [step_error_register l s nodes2 e hn hk] at h; cases h
    | ok ke2 =>
      rw [step_ok_eq l s nodes2 ke2 hn hk] at h
      cases h
      exact ⟨nodes2, ke2, rfl, rfl, rfl⟩

theorem upsertNode_ok_lookup (l : InputLine) (nodes nodes2 : List (Nat × ProcessEndpoints))
    (h : upsertNode l nodes = Except.ok nodes2) :
    ∃ n2, alookup nodes2 l.ProcessID = some n2 ∧
      n2.ProcessID = l.ProcessID ∧ n2.ProcessName = l.ProcessName ∧
      n2.LocalIP = l.LocalIP ∧ l.LocalPort ∈ n2.LocalPorts := by
  cases hl : alookup nodes l.ProcessID with
  | none =>
    rw [upsertNode_new l nodes hl] at h
    cases h
    exact ⟨_, alookup_aupsert_self _ _ _, rfl, rfl, rfl, by simp⟩
  | some n =>
    rw [upsertNode_known l nodes n hl] at h
    by_cases h1 : n.LocalIP ≠ l.LocalIP
    · rw [if_pos h1] at h; cases h
    rw [if_neg h1] at h
    by_cases h2 : n.ProcessID ≠ l.ProcessID
    · rw [if_pos h2] at h; cases h
    rw [if_neg h2] at h
    by_cases h3 : n.ProcessName ≠ l.ProcessName
    · rw [if_pos h3] at h; cases h
    rw [if_neg h3] at h
    push_neg at h1 h2 h3
    by_cases hp : l.LocalPort ∈ n.LocalPorts
    · rw [if_pos hp] at h
      cases h
      exact ⟨n, alookup_aupsert_self _ _ _, h2, h3, h1, hp⟩
    · rw [if_neg hp] at h
      cases h
      exact ⟨_, alookup_aupsert_self _ _ _, h2, h3, h1, by simp⟩

theorem upsertNode_idem (l : InputLine) (nodes nodes2 : List (Nat × ProcessEndpoints))
    (h : upsertNode l nodes = Except.ok nodes2) :
    upsertNode l nodes2 = Except.ok nodes2 := by
  obtain ⟨n2, hl, hid, hnm, hip, hp⟩ := upsertNode_ok_lookup l nodes nodes2 h
  rw [upsertNode_known l nodes2 n2 hl, if_neg (by rw [hip]; simp),
    if_neg (by rw [hid]; simp), if_neg (by rw [hnm]; simp), if_pos hp,
    aupsert_of_alookup_eq _ _ _ hl]

theorem registerLocalEp_ok_lookup (l : InputLine) (ke ke2 : List (NetworkEndpoint × Nat))
    (h : registerLocalEp l ke = Except.ok ke2) :
    alookup ke2 ⟨l.LocalIP, l.LocalPort⟩ = some l.ProcessID := by
  cases hl : alookup ke ⟨l.LocalIP, l.LocalPort⟩ with
  | none =>
    rw [registerLocalEp_new l ke hl] at h
    cases h
    exact alookup_aupsert_self _ _ _
  | some e =>
    rw [registerLocalEp_known l ke e hl] at h
    by_cases he : e ≠ l.ProcessID
    · rw [if_pos he] at h; cases h
    · push_neg at he
      rw [if_neg (by rw [he]; simp)] at h
      cases h
      rw [hl, he]

theorem registerLocalEp_idem (l : InputLine) (ke ke2 : List (NetworkEndpoint × Nat))
    (h : registerLocalEp l ke = Except.ok ke2) :
    registerLocalEp l ke2 = Except.ok ke2 := by
  have hl := registerLocalEp_ok_lookup l ke ke2 h
  rw [registerLocalEp_known l ke2 l.ProcessID hl]
  simp

theorem resolveEdge_idem (l : InputLine) (ke : List (NetworkEndpoint × Nat))
    (es : List Edge) :
    resolveEdge l ke (resolveEdge l ke es) = resolveEdge l ke es := by
  cases hl : alookup ke ⟨l.RemoteIP, l.RemotePort⟩ with
  | none => rw [resolveEdge_none l ke _ hl]
  | some rpid =>
    rw [resolveEdge_some l ke es rpid hl,
      resolveEdge_some l ke _ rpid hl]
    by_cases hmem : mkEdge l rpid ∈ es
    · rw [if_pos hmem, if_pos hmem]
    · rw [if_neg hmem, if_pos (by simp)]

/-! ## Claim C4: fatal consistency violations and idempotent re-registration -/

/-- Claim C4: processing an accepted observation whose process id is already
known with a different label or a different local IP aborts fatally; so
does one whose local endpoint is registered to a different process id;
re-registering the identical identity and identical endpoint mapping does
not abort, and leaves the stored identity and the registry unchanged (only
the port set may grow). -/
theorem claim4_consistency :
    (∀ (l : InputLine) (s : CorrState) (n : ProcessEndpoints),
      alookup s.nodes l.ProcessID = some n →
      (n.LocalIP ≠ l.LocalIP ∨ n.ProcessName ≠ l.ProcessName) →
      ∃ msg, step l s = Except.error msg) ∧
    (∀ (l : InputLine) (s : CorrState) (p : Nat),
      alookup s.knownEndpoints ⟨l.LocalIP, l.LocalPort⟩ = some p →
      p ≠ l.ProcessID →
      ∃ msg, step l s = Except.error msg) ∧
    (∀ (l : InputLine) (s : CorrState) (n : ProcessEndpoints),
      alookup s.nodes l.ProcessID = some n →
      n.ProcessID = l.ProcessID → n.ProcessName = l.ProcessName →
      n.LocalIP = l.LocalIP →
      alookup s.knownEndpoints ⟨l.LocalIP, l.LocalPort⟩ = some l.ProcessID →
      ∃ s', step l s = Except.ok s' ∧
        (alookup s'.nodes l.ProcessID).map
          (fun m => (m.ProcessID, m.ProcessName, m.LocalIP)) =
          some (n.ProcessID, n.ProcessName, n.LocalIP) ∧
        s'.knownEndpoints = s.knownEndpoints) := by
  refine ⟨?_, ?_, ?_⟩
  · intro l s n hl hne
    have herr : ∃ msg, upsertNode l s.nodes = Except.error msg := by
      rw [upsertNode_known l s.nodes n hl]
      by_cases h1 : n.LocalIP ≠ l.LocalIP
      · exact ⟨_, by rw [if_pos h1]⟩
      · have h3 : n.ProcessName ≠ l.ProcessName := by tauto
        by_cases h2 : n.ProcessID ≠ l.ProcessID
        · exact ⟨_, by rw [if_neg h1, if_pos h2]⟩
        · exact ⟨_, by rw [if_neg h1, if_neg h2, if_pos h3]⟩
    obtain ⟨msg, hmsg⟩ := herr
    exact ⟨msg, step_error_upsert l s msg hmsg⟩
  · intro l s p hl hne
    cases hn : upsertNode l s.nodes with
    | error e => exact ⟨e, step_error_upsert l s e hn⟩
    | ok nodes2 =>
      exact ⟨"logical bug endpoint", step_error_register l s nodes2 _ hn
        (by rw [registerLocalEp_known l s.knownEndpoints p hl, if_pos hne])⟩
  · intro l s n hl hid hnm hip hke
    have hn : upsertNode l s.nodes = Except.ok (aupsert s.nodes l.ProcessID
        (if l.LocalPort ∈ n.LocalPorts then n
         else ⟨n.ProcessID, n.ProcessName, n.LocalIP,
           n.LocalPorts ++ [l.LocalPort]⟩)) := by
      rw [upsertNode_known l s.nodes n hl, if_neg (by rw [hip]; simp),
        if_neg (by rw [hid]; simp), if_neg (by rw [hnm]; simp)]
    have hk : registerLocalEp l s.knownEndpoints = Except.ok s.knownEndpoints := by
      rw [registerLocalEp_known l s.knownEndpoints l.ProcessID hke]
      simp
    refine ⟨_, step_ok_eq l s _ _ hn hk, ?_, rfl⟩
    by_cases hp : l.LocalPort ∈ n.LocalPorts
    · rw [if_pos hp]
      simp [alookup_aupsert_self]
    · rw [if_neg hp]
      simp [alookup_aupsert_self]

/-- Witness for C4: at concrete inputs, a label conflict for pid 5 aborts,
an endpoint owned by pid 6 aborts a line from pid 5, and an identical
re-registration succeeds leaving identity and registry unchanged. -/
theorem claim4_witness :
    (∃ msg, step ⟨Direction.Remote2Local, "10.0.0.2", 80, "10.0.0.1", 90, 5, "b"⟩
      ⟨[(5, ⟨5, "a", "10.0.0.1", [90]⟩)], [(⟨"10.0.0.1", 90⟩, 5)], []⟩ =
      Except.error msg) ∧
    (∃ msg, step ⟨Direction.Remote2Local, "10.0.0.2", 80, "10.0.0.1", 90, 5, "a"⟩
      ⟨[(5, ⟨5, "a", "10.0.0.1", [90]⟩)], [(⟨"10.0.0.1", 90⟩, 6)], []⟩ =
      Except.error msg) ∧
    (∃ s', step ⟨Direction.Remote2Local, "10.0.0.2", 80, "10.0.0.1", 90, 5, "a"⟩
      ⟨[(5, ⟨5, "a", "10.0.0.1", [90]⟩)], [(⟨"10.0.0.1", 90⟩, 5)], []⟩ =
      Except.ok s' ∧
      (alookup s'.nodes 5).map
        (fun m => (m.ProcessID, m.ProcessName, m.LocalIP)) =
        some (5, "a", "10.0.0.1") ∧
      s'.knownEndpoints = [(⟨"10.0.0.1", 90⟩, 5)]) := by
  refine ⟨?_, ?_, ?_⟩
  · exact claim4_consistency.1 _ _ ⟨5, "a", "10.0.0.1", [90]⟩ (by decide)
      (Or.inr (by decide))
  · exact claim4_consistency.2.1 _ _ 6 (by decide) (by decide)
  · exact claim4_consistency.2.2 _ _ ⟨5, "a", "10.0.0.1", [90]⟩ (by decide) rfl rfl
      rfl (by decide)

/-! ## Claim C5: processing the same line twice is idempotent -/

/-- Claim C5: feeding the same input line twice in succession is idempotent
on the stores: if the first processing succeeds and yields `s'`, the second
processing of the same line returns `s'` unchanged — in particular it adds
no duplicate port to any ProcessNode port set and no second Edge. -/
theorem processText_none (line : String) (s : CorrState)
    (hp : parseLine line = none) : processText line s = Except.ok s := by
  unfold processText
  rw [hp]

theorem processText_some (line : String) (s : CorrState) (l : InputLine)
    (hp : parseLine line = some l) : processText line s = processParsed l s := by
  unfold processText
  rw [hp]

theorem processParsed_valid (l : InputLine) (s : CorrState)
    (hv : IsValidLine l = true) : processParsed l s = step l s := by
  unfold processParsed
  rw [if_pos hv]

theorem processParsed_invalid (l : InputLine) (s : CorrState)
    (hv : IsValidLine l = false) : processParsed l s = Except.ok s := by
  unfold processParsed
  rw [if_neg (by rw [hv]; simp)]

theorem step_idem (l : InputLine) (s s' : CorrState)
    (h : step l s = Except.ok s') : step l s' = Except.ok s' := by
  obtain ⟨nodes2, ke2, hn, hk, hs⟩ := step_decompose l s s' h
  subst hs
  rw [step_ok_eq l _ nodes2 ke2 (upsertNode_idem l s.nodes nodes2 hn)
    (registerLocalEp_idem l s.knownEndpoints ke2 hk), resolveEdge_idem]

theorem claim5_idempotent (line : String) (s s' : CorrState)
    (h : processText line s = Except.ok s') :
    processText line s' = Except.ok s' := by
  cases hp : parseLine line with
  | none =>
    rw [processText_none line s hp] at h
    cases h
    exact processText_none line _ hp
  | some l =>
    rw [processText_some line s l hp] at h
    rw [processText_some line s' l hp]
    by_cases hv : IsValidLine l = true
    · rw [processParsed_valid l s hv] at h
      rw [processParsed_valid l s' hv]
      exact step_idem l s s' h
    · rw [processParsed_invalid l s (by simpa using hv)] at h
      cases h
      exact processParsed_invalid l _ (by simpa using hv)

/-- Witness for C5: a concrete successful line processed twice. -/
theorem claim5_witness :
    processText "10.0.0.1:80->10.0.0.2:90|PID=5 CMD=a"
      ⟨[(5, ⟨5, "a", "10.0.0.2", [90]⟩)], [(⟨"10.0.0.2", 90⟩, 5)], []⟩ =
      Except.ok ⟨[(5, ⟨5, "a", "10.0.0.2", [90]⟩)], [(⟨"10.0.0.2", 90⟩, 5)], []⟩ :=
  claim5_idempotent "10.0.0.1:80->10.0.0.2:90|PID=5 CMD=a"
    emptyState
    ⟨[(5, ⟨5, "a", "10.0.0.2", [90]⟩)], [(⟨"10.0.0.2", 90⟩, 5)], []⟩
    rfl

/-! ## Claim C7: an unresolved remote endpoint produces no edge -/

/-- Claim C7: for an accepted observation whose remote endpoint is not in
the endpoint registry at resolution time (the registry as it stands after
the observation's own local endpoint is registered, which is the registry
the program consults), a successful processing step updates or creates the
ProcessNode of the local process and registers its local endpoint, but adds
zero new edges. -/
theorem claim7_unresolved_remote (l : InputLine) (s s' : CorrState)
    (h : step l s = Except.ok s')
    (habs : alookup s'.knownEndpoints ⟨l.RemoteIP, l.RemotePort⟩ = none) :
    s'.edges = s.edges ∧
    (∃ n, alookup s'.nodes l.ProcessID = some n ∧
      n.ProcessName = l.ProcessName ∧ n.LocalIP = l.LocalIP ∧
      l.LocalPort ∈ n.LocalPorts) ∧
    alookup s'.knownEndpoints ⟨l.LocalIP, l.LocalPort⟩ = some l.ProcessID := by
  obtain ⟨nodes2, ke2, hn, hk, hs⟩ := step_decompose l s s' h
  subst hs
  refine ⟨?_, ?_, registerLocalEp_ok_lookup l s.knownEndpoints ke2 hk⟩
  · unfold resolveEdge
    rw [habs]
  · obtain ⟨n2, hl, _, hnm, hip, hp⟩ := upsertNode_ok_lookup l s.nodes nodes2 hn
    exact ⟨n2, hl, hnm, hip, hp⟩

/-- Witness for C7: a concrete line whose remote endpoint is unknown
produces a node and a registration but no edge. -/
theorem claim7_witness :
    (CorrState.mk [(7, ProcessEndpoints.mk 7 "w" "10.0.0.5" [8080])]
      [(NetworkEndpoint.mk "10.0.0.5" 8080, 7)] []).edges = emptyState.edges ∧
    (∃ n, alookup [(7, ProcessEndpoints.mk 7 "w" "10.0.0.5" [8080])] 7 = some n ∧
      n.ProcessName = "w" ∧ n.LocalIP = "10.0.0.5" ∧ 8080 ∈ n.LocalPorts) ∧
    alookup [(NetworkEndpoint.mk "10.0.0.5" 8080, 7)]
      (NetworkEndpoint.mk "10.0.0.5" 8080) = some 7 :=
  claim7_unresolved_remote
    ⟨Direction.Remote2Local, "10.0.0.9", 443, "10.0.0.5", 8080, 7, "w"⟩
    emptyState
    ⟨[(7, ⟨7, "w", "10.0.0.5", [8080]⟩)], [(⟨"10.0.0.5", 8080⟩, 7)], []⟩
    rfl (by decide)

/-! ## Claim C3: mirror observations collapse to one edge -/

theorem processObsList_nil (s : CorrState) : processObsList [] s = Except.ok s := rfl

theorem processObsList_cons_ok (l : InputLine) (rest : List InputLine)
    (s s2 : CorrState) (h : processParsed l s = Except.ok s2) :
    processObsList (l :: rest) s = processObsList rest s2 := by
  have he : processObsList (l :: rest) s =
      match processParsed l s with
      | Except.error e => Except.error e
      | Except.ok s2 => processObsList rest s2 := rfl
  rw [he, h]

/-- Flip a direction marker. -/
def mirrorDir : Direction → Direction
  | Direction.Remote2Local => Direction.Local2Remote
  | Direction.Local2Remote => Direction.Remote2Local

/-- The mirror observation of `o`, as recorded by the other side of the
same connection: local and remote endpoints swapped, direction marker
swapped, and the other side's process id and name. -/
def mirrorObs (o : InputLine) (pid2 : Nat) (nm2 : String) : InputLine :=
  ⟨mirrorDir o.Dir, o.LocalIP, o.LocalPort, o.RemoteIP, o.RemotePort, pid2, nm2⟩

/-- The one edge a mirror pair resolves to: for an outbound observation the
observing process is the source; for an inbound one it is the destination. -/
def mirrorEdge (o : InputLine) (pid2 : Nat) : Edge :=
  match o.Dir with
  | Direction.Local2Remote => ⟨⟨o.ProcessID, o.LocalPort⟩, ⟨pid2, o.RemotePort⟩⟩
  | Direction.Remote2Local => ⟨⟨pid2, o.RemotePort⟩, ⟨o.ProcessID, o.LocalPort⟩⟩

/-- Claim C3: for every pair of accepted observations that are true mirrors
of one connection between two distinct processes on two distinct endpoints,
processing both — in either order, starting from the empty stores — leaves
exactly one Edge for that connection in the edge set, the same ordered
source/destination pair regardless of arrival order. -/
theorem claim3_mirror_symmetry (o : InputLine) (pid2 : Nat) (nm2 : String)
    (hpid : o.ProcessID ≠ pid2)
    (hep : NetworkEndpoint.mk o.LocalIP o.LocalPort ≠
      NetworkEndpoint.mk o.RemoteIP o.RemotePort)
    (hv1 : IsValidLine o = true)
    (hv2 : IsValidLine (mirrorObs o pid2 nm2) = true) :
    (processObsList [o, mirrorObs o pid2 nm2] emptyState).map
      (fun s => s.edges) = Except.ok [mirrorEdge o pid2] ∧
    (processObsList [mirrorObs o pid2 nm2, o] emptyState).map
      (fun s => s.edges) = Except.ok [mirrorEdge o pid2] := by
  obtain ⟨dir, rip, rp, lip, lp, pid1, nm1⟩ := o
  have hpid2 : pid1 ≠ pid2 := hpid
  have hep2 : NetworkEndpoint.mk lip lp ≠ NetworkEndpoint.mk rip rp := hep
  cases dir with
  | Local2Remote =>
    refine ⟨?_, ?_⟩
    · have h1 : processParsed ⟨Direction.Local2Remote, rip, rp, lip, lp, pid1, nm1⟩
          emptyState = Except.ok
          ⟨[(pid1, ⟨pid1, nm1, lip, [lp]⟩)], [(⟨lip, lp⟩, pid1)], []⟩ := by
        rw [processParsed_valid _ _ hv1]
        simp [step, upsertNode, registerLocalEp, resolveEdge, alookup, aupsert,
          emptyState, hep2]
      have h2 : processParsed
          (mirrorObs ⟨Direction.Local2Remote, rip, rp, lip, lp, pid1, nm1⟩ pid2 nm2)
          ⟨[(pid1, ⟨pid1, nm1, lip, [lp]⟩)], [(⟨lip, lp⟩, pid1)], []⟩ = Except.ok
          ⟨[(pid1, ⟨pid1, nm1, lip, [lp]⟩), (pid2, ⟨pid2, nm2, rip, [rp]⟩)],
           [(⟨lip, lp⟩, pid1), (⟨rip, rp⟩, pid2)],
           [⟨⟨pid1, lp⟩, ⟨pid2, rp⟩⟩]⟩ := by
        rw [processParsed_valid _ _ hv2]
        simp [step, upsertNode, registerLocalEp, resolveEdge, alookup, aupsert,
          mkEdge, mirrorObs, mirrorDir, hpid2, hep2]
      rw [processObsList_cons_ok _ _ _ _ h1, processObsList_cons_ok _ _ _ _ h2,
        processObsList_nil]
      rfl
    · have h1 : processParsed
          (mirrorObs ⟨Direction.Local2Remote, rip, rp, lip, lp, pid1, nm1⟩ pid2 nm2)
          emptyState = Except.ok
          ⟨[(pid2, ⟨pid2, nm2, rip, [rp]⟩)], [(⟨rip, rp⟩, pid2)], []⟩ := by
        rw [processParsed_valid _ _ hv2]
        simp [step, upsertNode, registerLocalEp, resolveEdge, alookup, aupsert,
          emptyState, mirrorObs, mirrorDir, Ne.symm hep2]
      have h2 : processParsed ⟨Direction.Local2Remote, rip, rp, lip, lp, pid1, nm1⟩
          ⟨[(pid2, ⟨pid2, nm2, rip, [rp]⟩)], [(⟨rip, rp⟩, pid2)], []⟩ = Except.ok
          ⟨[(pid2, ⟨pid2, nm2, rip, [rp]⟩), (pid1, ⟨pid1, nm1, lip, [lp]⟩)],
           [(⟨rip, rp⟩, pid2), (⟨lip, lp⟩, pid1)],
           [⟨⟨pid1, lp⟩, ⟨pid2, rp⟩⟩]⟩ := by
        rw [processParsed_valid _ _ hv1]
        simp [step, upsertNode, registerLocalEp, resolveEdge, alookup, aupsert,
          mkEdge, Ne.symm hpid2, Ne.symm hep2]
      rw [processObsList_cons_ok _ _ _ _ h1, processObsList_cons_ok _ _ _ _ h2,
        processObsList_nil]
      rfl
  | Remote2Local =>
    refine ⟨?_, ?_⟩
    · have h1 : processParsed ⟨Direction.Remote2Local, rip, rp, lip, lp, pid1, nm1⟩
          emptyState = Except.ok
          ⟨[(pid1, ⟨pid1, nm1, lip, [lp]⟩)], [(⟨lip, lp⟩, pid1)], []⟩ := by
        rw [processParsed_valid _ _ hv1]
        simp [step, upsertNode, registerLocalEp, resolveEdge, alookup, aupsert,
          emptyState, hep2]
      have h2 : processParsed
          (mirrorObs ⟨Direction.Remote2Local, rip, rp, lip, lp, pid1, nm1⟩ pid2 nm2)
          ⟨[(pid1, ⟨pid1, nm1, lip, [lp]⟩)], [(⟨lip, lp⟩, pid1)], []⟩ = Except.ok
          ⟨[(pid1, ⟨pid1, nm1, lip, [lp]⟩), (pid2, ⟨pid2, nm2, rip, [rp]⟩)],
           [(⟨lip, lp⟩, pid1), (⟨rip, rp⟩, pid2)],
           [⟨⟨pid2, rp⟩, ⟨pid1, lp⟩⟩]⟩ := by
        rw [processParsed_valid _ _ hv2]
        simp [step, upsertNode, registerLocalEp, resolveEdge, alookup, aupsert,
          mkEdge, mirrorObs, mirrorDir, hpid2, hep2]
      rw [processObsList_cons_ok _ _ _ _ h1, processObsList_cons_ok _ _ _ _ h2,
        processObsList_nil]
      rfl
    · have h1 : processParsed
          (mirrorObs ⟨Direction.Remote2Local, rip, rp, lip, lp, pid1, nm1⟩ pid2 nm2)
          emptyState = Except.ok
          ⟨[(pid2, ⟨pid2, nm2, rip, [rp]⟩)], [(⟨rip, rp⟩, pid2)], []⟩ := by
        rw [processParsed_valid _ _ hv2]
        simp [step, upsertNode, registerLocalEp, resolveEdge, alookup, aupsert,
          emptyState, mirrorObs, mirrorDir, Ne.symm hep2]
      have h2 : processParsed ⟨Direction.Remote2Local, rip, rp, lip, lp, pid1, nm1⟩
          ⟨[(pid2, ⟨pid2, nm2, rip, [rp]⟩)], [(⟨rip, rp⟩, pid2)], []⟩ = Except.ok
          ⟨[(pid2, ⟨pid2, nm2, rip, [rp]⟩), (pid1, ⟨pid1, nm1, lip, [lp]⟩)],
           [(⟨rip, rp⟩, pid2), (⟨lip, lp⟩, pid1)],
           [⟨⟨pid2, rp⟩, ⟨pid1, lp⟩⟩]⟩ := by
        rw [processParsed_valid _ _ hv1]
        simp [step, upsertNode, registerLocalEp, resolveEdge, alookup, aupsert,
          mkEdge, Ne.symm hpid2, Ne.symm hep2]
      rw [processObsList_cons_ok _ _ _ _ h1, processObsList_cons_ok _ _ _ _ h2,
        processObsList_nil]
      rfl

/-- Witness for C3: the mirror pair of a concrete outbound observation
resolves to the same single edge in both arrival orders. -/
theorem claim3_witness :
    (processObsList [⟨Direction.Local2Remote, "10.0.0.9", 443, "10.0.0.5", 8080, 1, "a"⟩,
        mirrorObs ⟨Direction.Local2Remote, "10.0.0.9", 443, "10.0.0.5", 8080, 1, "a"⟩ 2 "b"]
      emptyState).map (fun s => s.edges) =
      Except.ok [mirrorEdge ⟨Direction.Local2Remote, "10.0.0.9", 443, "10.0.0.5", 8080, 1, "a"⟩ 2] ∧
    (processObsList [mirrorObs ⟨Direction.Local2Remote, "10.0.0.9", 443, "10.0.0.5", 8080, 1, "a"⟩ 2 "b",
        ⟨Direction.Local2Remote, "10.0.0.9", 443, "10.0.0.5", 8080, 1, "a"⟩]
      emptyState).map (fun s => s.edges) =
      Except.ok [mirrorEdge ⟨Direction.Local2Remote, "10.0.0.9", 443, "10.0.0.5", 8080, 1, "a"⟩ 2] :=
  claim3_mirror_symmetry
    ⟨Direction.Local2Remote, "10.0.0.9", 443, "10.0.0.5", 8080, 1, "a"⟩ 2 "b"
    (by decide) (by decide) (by decide) (by decide)

/-! ## Claim C8: obligations guaranteed to hold for accepted observations -/

theorem matchSeq_nil_eq (cs : List Char) : matchSeq [] cs = some [] := rfl

theorem matchSeq_cons_eq (e : RElem) (pat : List RElem) (cs : List Char) :
    matchSeq (e :: pat) cs = matchElem e (matchSeq pat) cs := rfl

theorem tryAnyF_caps_ne (pred : Char → Bool)
    (next : List Char → Option (List (List Char))) (cs : List Char)
    (hnext : ∀ t caps2, next t = some caps2 → ∀ g ∈ caps2, g ≠ []) :
    ∀ n, n ≤ cs.length → ∀ caps, tryAnyF pred next cs n = some caps →
      ∀ g ∈ caps, g ≠ [] := by
  intro n
  induction n with
  | zero =>
    intro _ caps h
    simp [tryAnyF] at h
  | succ n ih =>
    intro hn caps h
    rw [show tryAnyF pred next cs (n + 1) =
        (if (cs.take (n + 1)).all pred then
          match next (cs.drop (n + 1)) with
          | some caps2 => some (cs.take (n + 1) :: caps2)
          | none => tryAnyF pred next cs n
        else tryAnyF pred next cs n) from rfl] at h
    split at h
    · split at h
      · rename_i caps2 hnx
        cases h
        intro g hg
        rcases List.mem_cons.mp hg with hg1 | hg2
        · subst hg1
          cases cs with
          | nil => simp at hn
          | cons c t => simp
        · exact hnext _ _ hnx g hg2
      · exact ih (Nat.le_of_succ_le hn) caps h
    · exact ih (Nat.le_of_succ_le hn) caps h

theorem matchSeq_caps_ne (pat : List RElem) :
    ∀ cs caps, matchSeq pat cs = some caps → ∀ g ∈ caps, g ≠ [] := by
  induction pat with
  | nil =>
    intro cs caps h
    rw [matchSeq_nil_eq] at h
    cases h
    intro g hg
    simp at hg
  | cons e pat ih =>
    intro cs caps h
    rw [matchSeq_cons_eq] at h
    cases e with
    | lit l =>
      rw [show matchElem (RElem.lit l) (matchSeq pat) cs =
          (if l.isPrefixOf cs then matchSeq pat (cs.drop l.length) else none)
          from rfl] at h
      split at h
      · exact ih _ caps h
      · cases h
    | anyPlus =>
      exact tryAnyF_caps_ne _ _ cs (fun t c2 h2 => ih t c2 h2) cs.length
        (Nat.le_refl _) caps h
    | digitPlus =>
      exact tryAnyF_caps_ne _ _ cs (fun t c2 h2 => ih t c2 h2) cs.length
        (Nat.le_refl _) caps h

theorem findMatch_to_matchSeq (pat : List RElem) :
    ∀ cs caps, findMatch pat cs = some caps →
      ∃ cs', matchSeq pat cs' = some caps := by
  intro cs
  induction cs with
  | nil =>
    intro caps h
    exact ⟨[], h⟩
  | cons c rest ih =>
    intro caps h
    rw [show findMatch pat (c :: rest) =
        (match matchSeq pat (c :: rest) with
         | some caps => some caps
         | none => findMatch pat rest) from rfl] at h
    split at h
    · rename_i caps2 hm
      cases h
      exact ⟨c :: rest, hm⟩
    · exact ih caps h

theorem findMatch_caps_ne (pat : List RElem) (cs : List Char)
    (caps : List (List Char)) (h : findMatch pat cs = some caps) :
    ∀ g ∈ caps, g ≠ [] := by
  obtain ⟨cs', h'⟩ := findMatch_to_matchSeq pat cs caps h
  exact matchSeq_caps_ne pat cs' caps h'

theorem buildLine_ips (dir : Direction) (caps : List (List Char)) (l : InputLine)
    (h : buildLine dir caps = some l) (hne : ∀ g ∈ caps, g ≠ []) :
    l.RemoteIP ≠ "" ∧ l.LocalIP ≠ "" := by
  unfold buildLine at h
  split at h
  · split at h <;> cases h
    constructor
    · intro hc
      exact hne _ (by simp) (congrArg String.data hc)
    · intro hc
      exact hne _ (by simp) (congrArg String.data hc)
  · cases h

theorem parseLine_ips (line : String) (l : InputLine)
    (hp : parseLine line = some l) : l.RemoteIP ≠ "" ∧ l.LocalIP ≠ "" := by
  unfold parseLine at hp
  split at hp
  · rename_i caps hm
    exact buildLine_ips _ caps l hp (findMatch_caps_ne patOut line.data caps hm)
  · split at hp
    · rename_i caps hm
      exact buildLine_ips _ caps l hp (findMatch_caps_ne patIn line.data caps hm)
    · cases hp

/-- Claim C8, counterexample: the line `foo:1->bar:2|PID=3 CMD=x` passes
parsing and validation — it reaches the correlator — yet neither of its IP
strings is a syntactically valid IP address (`net.ParseIP` returns `nil`
for both, and `IsValidLine` does not reject unparsable IPs; `Contains` of a
`nil` IP is simply `false`). -/
theorem claim8_counterexample :
    parseLine "foo:1->bar:2|PID=3 CMD=x" =
      some ⟨Direction.Remote2Local, "foo", 1, "bar", 2, 3, "x"⟩ ∧
    IsValidLine ⟨Direction.Remote2Local, "foo", 1, "bar", 2, 3, "x"⟩ = true ∧
    goParseIPBytes "foo" = none ∧ goParseIPBytes "bar" = none :=
  ⟨rfl, rfl, rfl, rfl⟩

/-- Claim C8, amended: every observation that passes parsing and validation
has a non-zero local port, a non-zero remote port, and non-empty local and
remote IP strings — but its IP strings need not be syntactically valid IP
addresses. -/
theorem claim8_accepted_invariant (line : String) (l : InputLine)
    (hp : parseLine line = some l) (hv : IsValidLine l = true) :
    l.LocalPort ≠ 0 ∧ l.RemotePort ≠ 0 ∧ l.RemoteIP ≠ "" ∧ l.LocalIP ≠ "" := by
  have hports : ¬(l.LocalPort = 0 ∨ l.RemotePort = 0) := by
    intro hcon
    unfold IsValidLine at hv
    rw [if_pos hcon] at hv
    cases hv
  push_neg at hports
  obtain ⟨h1, h2⟩ := parseLine_ips line l hp
  exact ⟨hports.1, hports.2, h1, h2⟩

/-- Witness for C8 (amended): the accepted observation parsed from a
concrete valid line has non-zero ports and non-empty IP strings. -/
theorem claim8_witness :
    (2 : Nat) ≠ 0 ∧ (1 : Nat) ≠ 0 ∧
    ("1.2.3.4" : String) ≠ "" ∧ ("5.6.7.8" : String) ≠ "" :=
  claim8_accepted_invariant "1.2.3.4:1->5.6.7.8:2|PID=3 CMD=a"
    ⟨Direction.Remote2Local, "1.2.3.4", 1, "5.6.7.8", 2, 3, "a"⟩ rfl rfl

/-! ## Claim C2: characterising the two accepted line shapes

The lemmas below pin down what the backtracking matcher returns on a line
built from well-behaved tokens, mirroring how Go's leftmost-first greedy
semantics resolve the two patterns. -/

theorem tryAnyF_succ_eq (pred : Char → Bool)
    (next : List Char → Option (List (List Char))) (cs : List Char) (n : Nat) :
    tryAnyF pred next cs (n + 1) =
      (if (cs.take (n + 1)).all pred then
        match next (cs.drop (n + 1)) with
        | some caps2 => some (cs.take (n + 1) :: caps2)
        | none => tryAnyF pred next cs n
      else tryAnyF pred next cs n) := rfl

theorem tryAnyF_none (pred : Char → Bool)
    (next : List Char → Option (List (List Char))) (cs : List Char) :
    ∀ n, (∀ k, 1 ≤ k → k ≤ n → next (cs.drop k) = none) →
      tryAnyF pred next cs n = none := by
  intro n
  induction n with
  | zero => intro _; rfl
  | succ n ih =>
    intro h
    rw [tryAnyF_succ_eq]
    by_cases hall : (cs.take (n + 1)).all pred
    · rw [if_pos hall, h (n + 1) (by omega) (Nat.le_refl _)]
      exact ih (fun k hk1 hk2 => h k hk1 (Nat.le_succ_of_le hk2))
    · rw [if_neg hall]
      exact ih (fun k hk1 hk2 => h k hk1 (Nat.le_succ_of_le hk2))

theorem tryAnyF_greedy (pred : Char → Bool)
    (next : List Char → Option (List (List Char))) (cs : List Char)
    (m : Nat) (caps2 : List (List Char))
    (hm1 : 1 ≤ m) (hpred : (cs.take m).all pred = true)
    (hnext : next (cs.drop m) = some caps2) :
    ∀ n, m ≤ n →
      (∀ k, m < k → k ≤ n → (cs.take k).all pred = true →
        next (cs.drop k) = none) →
      tryAnyF pred next cs n = some (cs.take m :: caps2) := by
  intro n
  induction n with
  | zero =>
    intro hmn _
    exact absurd (Nat.le_trans hm1 hmn) (by omega)
  | succ n ih =>
    intro hmn hfail
    rw [tryAnyF_succ_eq]
    by_cases hc : m = n + 1
    · subst hc
      rw [if_pos hpred, hnext]
    · have hmn2 : m ≤ n := by omega
      by_cases hall : (cs.take (n + 1)).all pred
      · rw [if_pos hall, hfail (n + 1) (by omega) (Nat.le_refl _) hall]
        exact ih hmn2 (fun k h1 h2 h3 => hfail k h1 (Nat.le_succ_of_le h2) h3)
      · rw [if_neg hall]
        exact ih hmn2 (fun k h1 h2 h3 => hfail k h1 (Nat.le_succ_of_le h2) h3)

theorem matchElem_lit_eq (l : List Char) (next : List Char → Option (List (List Char)))
    (cs : List Char) :
    matchElem (RElem.lit l) next cs =
      (if l.isPrefixOf cs then next (cs.drop l.length) else none) := rfl

theorem matchSeq_none_missing (c : Char) :
    ∀ (pat : List RElem), (∃ l, RElem.lit l ∈ pat ∧ c ∈ l) →
      ∀ cs, c ∉ cs → matchSeq pat cs = none := by
  intro pat
  induction pat with
  | nil =>
    rintro ⟨l, hl, _⟩
    simp at hl
  | cons e pat ih =>
    rintro ⟨l, hl, hcl⟩ cs hcs
    rw [matchSeq_cons_eq]
    rcases List.mem_cons.mp hl with he | hl2
    · cases he
      rw [matchElem_lit_eq]
      by_cases hpre : l.isPrefixOf cs
      · exact absurd ((List.isPrefixOf_iff_prefix.mp hpre).subset hcl) hcs
      · rw [if_neg hpre]
    · cases e with
      | lit l0 =>
        rw [matchElem_lit_eq]
        by_cases hpre : l0.isPrefixOf cs
        · rw [if_pos hpre]
          exact ih ⟨l, hl2, hcl⟩ _ (fun hmem => hcs (List.drop_subset _ _ hmem))
        · rw [if_neg hpre]
      | anyPlus =>
        exact tryAnyF_none _ _ cs cs.length
          (fun k _ _ => ih ⟨l, hl2, hcl⟩ _ (fun hmem => hcs (List.drop_subset _ _ hmem)))
      | digitPlus =>
        exact tryAnyF_none _ _ cs cs.length
          (fun k _ _ => ih ⟨l, hl2, hcl⟩ _ (fun hmem => hcs (List.drop_subset _ _ hmem)))

theorem findMatch_cons_eq (pat : List RElem) (c : Char) (rest : List Char) :
    findMatch pat (c :: rest) =
      (match matchSeq pat (c :: rest) with
       | some caps => some caps
       | none => findMatch pat rest) := rfl

theorem findMatch_of_matchSeq (pat : List RElem) (cs : List Char)
    (caps : List (List Char)) (h : matchSeq pat cs = some caps) :
    findMatch pat cs = some caps := by
  cases cs with
  | nil => exact h
  | cons c rest => rw [findMatch_cons_eq, h]

theorem findMatch_none_missing (c : Char) (pat : List RElem)
    (hlit : ∃ l, RElem.lit l ∈ pat ∧ c ∈ l) :
    ∀ cs, c ∉ cs → findMatch pat cs = none := by
  intro cs
  induction cs with
  | nil => intro _; exact matchSeq_none_missing c pat hlit [] (by simp)
  | cons d rest ih =>
    intro hc
    rw [findMatch_cons_eq, matchSeq_none_missing c pat hlit _ hc]
    exact ih (fun h => hc (List.mem_cons_of_mem d h))

theorem matchSeq_lit_cat (l : List Char) (rest : List RElem) (t : List Char) :
    matchSeq (RElem.lit l :: rest) (l ++ t) = matchSeq rest t := by
  rw [matchSeq_cons_eq, matchElem_lit_eq,
    if_pos (List.isPrefixOf_iff_prefix.mpr (List.prefix_append l t)),
    List.drop_left]

theorem matchSeq_lit_head_ne (c : Char) (l : List Char) (rest : List RElem)
    (cs : List Char) (h : cs.head? ≠ some c) :
    matchSeq (RElem.lit (c :: l) :: rest) cs = none := by
  rw [matchSeq_cons_eq, matchElem_lit_eq]
  cases cs with
  | nil => rfl
  | cons d t =>
    rw [if_neg (fun hp => h ?_)]
    have hcd : c = d := (List.cons_prefix_cons.mp (List.isPrefixOf_iff_prefix.mp hp)).1
    rw [hcd]
    rfl

/-- The shared suffix of both patterns, after the direction arrow:
`(.+):(\d+)\|PID=(\d+) CMD=(.+)`. -/
def patTail : List RElem :=
  [RElem.anyPlus, RElem.lit [':'], RElem.digitPlus,
   RElem.lit ['|', 'P', 'I', 'D', '='], RElem.digitPlus,
   RElem.lit [' ', 'C', 'M', 'D', '='], RElem.anyPlus]

theorem predAny_all (cs : List Char) (h : '\n' ∉ cs) :
    (cs.all fun c => decide (¬ c = '\n')) = true := by
  rw [List.all_eq_true]
  intro c hc
  rw [decide_eq_true_eq]
  intro he
  exact h (he ▸ hc)

theorem digits_not_mem (ds : List Char) (hd : ∀ c ∈ ds, c.isDigit = true)
    (c0 : Char) (h0 : c0.isDigit = false) : c0 ∉ ds := by
  intro hm
  rw [hd c0 hm] at h0
  cases h0

theorem all_take_mid (a : List Char) (c : Char) (r : List Char)
    (pred : Char → Bool) (hc : pred c = false) (k : Nat) (hk : a.length < k)
    (hall : ((a ++ c :: r).take k).all pred = true) : False := by
  have h1 : List.take k (a ++ c :: r) = a ++ List.take (k - a.length) (c :: r) := by
    rw [List.take_append_eq_append_take, List.take_of_length_le (by omega)]
  obtain ⟨j, hj⟩ : ∃ j, k - a.length = j + 1 := ⟨k - a.length - 1, by omega⟩
  rw [h1, hj, List.take_succ_cons, List.all_append] at hall
  simp [hc] at hall

theorem drop_append_cons_shift {α : Type} (a : List α) (c : α) (r : List α)
    (k : Nat) (hk : a.length < k) :
    List.drop k (a ++ c :: r) = List.drop (k - a.length - 1) r := by
  rw [List.drop_append_eq_append_drop, List.drop_eq_nil_of_le (by omega),
    List.nil_append]
  obtain ⟨j, hj⟩ : ∃ j, k - a.length = j + 1 := ⟨k - a.length - 1, by omega⟩
  rw [hj, List.drop_succ_cons]
  congr 1

/-- Greedy match of a digit group bounded on the right by a non-digit
character `c`: the capture is exactly the digit block. -/
theorem matchSeq_digits_block (ds : List Char) (c : Char) (r : List Char)
    (rest : List RElem) (caps2 : List (List Char))
    (hne : ds ≠ []) (hd : ∀ x ∈ ds, x.isDigit = true) (hc : c.isDigit = false)
    (hnext : matchSeq rest (c :: r) = some caps2) :
    matchSeq (RElem.digitPlus :: rest) (ds ++ c :: r) = some (ds :: caps2) := by
  have hgreedy := tryAnyF_greedy Char.isDigit (matchSeq rest) (ds ++ c :: r)
    ds.length caps2
    (by have := List.length_pos.mpr hne; omega)
    (by rw [List.take_left]; exact List.all_eq_true.mpr hd)
    (by rw [List.drop_left]; exact hnext)
    (ds ++ c :: r).length (by simp)
    (fun k h1 h2 h3 => absurd h3 (by
      intro hall
      exact all_take_mid ds c r Char.isDigit hc k h1 hall))
  rw [List.take_left] at hgreedy
  exact hgreedy

/-- The matcher on the tail of a well-formed line: the first `(.+)` takes
exactly the IP token, the digit groups take exactly the digit blocks, and
the final `(.+)` takes the whole command name. -/
theorem matchSeq_tail_shape (ip2 p2 pid nm : List Char)
    (hip2ne : ip2 ≠ []) (hip2nl : '\n' ∉ ip2)
    (hp2ne : p2 ≠ []) (hp2d : ∀ c ∈ p2, c.isDigit = true)
    (hpidne : pid ≠ []) (hpidd : ∀ c ∈ pid, c.isDigit = true)
    (hnmne : nm ≠ []) (hnmnl : '\n' ∉ nm) (hnmbar : '|' ∉ nm) :
    matchSeq patTail
      (ip2 ++ ':' :: (p2 ++ '|' :: 'P' :: 'I' :: 'D' :: '=' ::
        (pid ++ ' ' :: 'C' :: 'M' :: 'D' :: '=' :: nm))) =
      some [ip2, p2, pid, nm] := by
  -- final (.+) on the command name
  have hnm1 : matchSeq [RElem.anyPlus] nm = some [nm] := by
    have hg := tryAnyF_greedy (fun c => decide (¬ c = '\n')) (matchSeq []) nm
      nm.length []
      (by have := List.length_pos.mpr hnmne; omega)
      (by rw [List.take_length]; exact predAny_all nm hnmnl)
      (by rw [List.drop_length]; rfl)
      nm.length (Nat.le_refl _)
      (fun k h1 h2 _ => absurd (Nat.lt_of_lt_of_le h1 h2) (by omega))
    rw [List.take_length] at hg
    exact hg
  -- ` CMD=` literal then the name
  have hcmd : matchSeq (RElem.lit [' ', 'C', 'M', 'D', '='] :: [RElem.anyPlus])
      ([' ', 'C', 'M', 'D', '='] ++ nm) = some [nm] :=
    (matchSeq_lit_cat _ _ _).trans hnm1
  -- pid digits bounded by the space of ` CMD=`
  have hpid1 : matchSeq (RElem.digitPlus :: RElem.lit [' ', 'C', 'M', 'D', '='] ::
      [RElem.anyPlus]) (pid ++ ' ' :: 'C' :: 'M' :: 'D' :: '=' :: nm) =
      some [pid, nm] :=
    matchSeq_digits_block pid ' ' ('C' :: 'M' :: 'D' :: '=' :: nm) _ [nm]
      hpidne hpidd (by decide) hcmd
  -- `|PID=` literal then pid
  have hpidlit : matchSeq (RElem.lit ['|', 'P', 'I', 'D', '='] :: RElem.digitPlus ::
      RElem.lit [' ', 'C', 'M', 'D', '='] :: [RElem.anyPlus])
      (['|', 'P', 'I', 'D', '='] ++ (pid ++ ' ' :: 'C' :: 'M' :: 'D' :: '=' :: nm)) =
      some [pid, nm] :=
    (matchSeq_lit_cat _ _ _).trans hpid1
  -- local port digits bounded by `|`
  have hp21 : matchSeq (RElem.digitPlus :: RElem.lit ['|', 'P', 'I', 'D', '='] ::
      RElem.digitPlus :: RElem.lit [' ', 'C', 'M', 'D', '='] :: [RElem.anyPlus])
      (p2 ++ '|' :: 'P' :: 'I' :: 'D' :: '=' ::
        (pid ++ ' ' :: 'C' :: 'M' :: 'D' :: '=' :: nm)) = some [p2, pid, nm] :=
    matchSeq_digits_block p2 '|'
      ('P' :: 'I' :: 'D' :: '=' :: (pid ++ ' ' :: 'C' :: 'M' :: 'D' :: '=' :: nm))
      _ [pid, nm] hp2ne hp2d (by decide) hpidlit
  -- `:` literal then the port
  have hcol : matchSeq (RElem.lit [':'] :: RElem.digitPlus ::
      RElem.lit ['|', 'P', 'I', 'D', '='] :: RElem.digitPlus ::
      RElem.lit [' ', 'C', 'M', 'D', '='] :: [RElem.anyPlus])
      ([':'] ++ (p2 ++ '|' :: 'P' :: 'I' :: 'D' :: '=' ::
        (pid ++ ' ' :: 'C' :: 'M' :: 'D' :: '=' :: nm))) = some [p2, pid, nm] :=
    (matchSeq_lit_cat _ _ _).trans hp21
  -- `|` does not occur after the port block
  have hbarrest : ('|' : Char) ∉
      ('P' :: 'I' :: 'D' :: '=' :: (pid ++ ' ' :: 'C' :: 'M' :: 'D' :: '=' :: nm)) := by
    intro hm
    simp at hm
    rcases hm with h | h
    · exact digits_not_mem pid hpidd '|' (by decide) h
    · exact hnmbar h
  -- the leading (.+): greedy down to exactly the IP token
  have hg := tryAnyF_greedy (fun c => decide (¬ c = '\n'))
    (matchSeq (RElem.lit [':'] :: RElem.digitPlus ::
      RElem.lit ['|', 'P', 'I', 'D', '='] :: RElem.digitPlus ::
      RElem.lit [' ', 'C', 'M', 'D', '='] :: [RElem.anyPlus]))
    (ip2 ++ ':' :: (p2 ++ '|' :: 'P' :: 'I' :: 'D' :: '=' ::
      (pid ++ ' ' :: 'C' :: 'M' :: 'D' :: '=' :: nm)))
    ip2.length [p2, pid, nm]
    (by have := List.length_pos.mpr hip2ne; omega)
    (by rw [List.take_left]; exact predAny_all ip2 hip2nl)
    (by rw [List.drop_left]; exact hcol)
    (ip2 ++ ':' :: (p2 ++ '|' :: 'P' :: 'I' :: 'D' :: '=' ::
      (pid ++ ' ' :: 'C' :: 'M' :: 'D' :: '=' :: nm))).length
    (by simp)
    (fun k hk1 hk2 _ => by
      -- failure of the tail pattern at every position after the IP token
      have hdrop : List.drop k (ip2 ++ ':' :: (p2 ++ '|' :: 'P' :: 'I' :: 'D' :: '=' ::
          (pid ++ ' ' :: 'C' :: 'M' :: 'D' :: '=' :: nm))) =
          List.drop (k - ip2.length - 1)
            (p2 ++ '|' :: 'P' :: 'I' :: 'D' :: '=' ::
              (pid ++ ' ' :: 'C' :: 'M' :: 'D' :: '=' :: nm)) :=
        drop_append_cons_shift ip2 ':' _ k hk1
      rw [hdrop]
      set j := k - ip2.length - 1 with hjdef
      by_cases hj1 : j < p2.length
      · -- inside the digit block: the head is a digit, not `:`
        cases hdp : List.drop j p2 with
        | nil =>
          rw [List.drop_eq_nil_iff] at hdp
          omega
        | cons d t =>
          have hdmem : d ∈ p2 := List.drop_subset _ _ (hdp ▸ List.mem_cons_self d t)
          have hdd := hp2d d hdmem
          have heq : List.drop j (p2 ++ '|' :: 'P' :: 'I' :: 'D' :: '=' ::
              (pid ++ ' ' :: 'C' :: 'M' :: 'D' :: '=' :: nm)) =
              d :: (t ++ '|' :: 'P' :: 'I' :: 'D' :: '=' ::
                (pid ++ ' ' :: 'C' :: 'M' :: 'D' :: '=' :: nm)) := by
            rw [List.drop_append_eq_append_drop, hdp,
              Nat.sub_eq_zero_of_le (Nat.le_of_lt hj1), List.drop_zero]
            simp
          rw [heq]
          refine matchSeq_lit_head_ne ':' [] _ _ ?_
          rw [List.head?_cons]
          intro hsome
          rw [Option.some.injEq] at hsome
          rw [hsome] at hdd
          exact absurd hdd (by decide)
      · by_cases hj2 : j = p2.length
        · -- exactly at the `|`
          have heq : List.drop j (p2 ++ '|' :: 'P' :: 'I' :: 'D' :: '=' ::
              (pid ++ ' ' :: 'C' :: 'M' :: 'D' :: '=' :: nm)) =
              '|' :: 'P' :: 'I' :: 'D' :: '=' ::
                (pid ++ ' ' :: 'C' :: 'M' :: 'D' :: '=' :: nm) := by
            rw [List.drop_append_eq_append_drop, hj2, List.drop_length,
              Nat.sub_self, List.drop_zero, List.nil_append]
          rw [heq]
          exact matchSeq_lit_head_ne ':' [] _ _ (by rw [List.head?_cons]; decide)
        · -- strictly beyond the `|`: no second `|` can be found
          have heq : List.drop j (p2 ++ '|' :: 'P' :: 'I' :: 'D' :: '=' ::
              (pid ++ ' ' :: 'C' :: 'M' :: 'D' :: '=' :: nm)) =
              List.drop (j - p2.length - 1)
                ('P' :: 'I' :: 'D' :: '=' :: (pid ++ ' ' :: 'C' :: 'M' :: 'D' :: '=' :: nm)) :=
            drop_append_cons_shift p2 '|' _ j (by omega)
          rw [heq]
          refine matchSeq_none_missing '|' _ ⟨['|', 'P', 'I', 'D', '='], by simp, by simp⟩ _ ?_
          intro hm
          exact hbarrest (List.drop_subset _ _ hm))
  rw [List.take_left] at hg
  exact hg

/-- The matcher on a whole well-formed line: generic over the two-character
direction arrow.  `t` is the part after the arrow, `tcaps` its captures. -/
theorem matchSeq_head_shape (a1 a2 : Char) (ip1 p1 t : List Char)
    (tcaps : List (List Char))
    (hip1ne : ip1 ≠ []) (hip1nl : '\n' ∉ ip1)
    (hp1ne : p1 ≠ []) (hp1d : ∀ c ∈ p1, c.isDigit = true)
    (ha1d : a1.isDigit = false) (ha1c : a1 ≠ ':') (ha2c : a2 ≠ ':')
    (cstar : Char) (hstar : cstar = a1 ∨ cstar = a2) (hstart : cstar ∉ t)
    (htail : matchSeq patTail t = some tcaps) :
    matchSeq (RElem.anyPlus :: RElem.lit [':'] :: RElem.digitPlus ::
      RElem.lit [a1, a2] :: patTail) (ip1 ++ ':' :: (p1 ++ a1 :: a2 :: t)) =
      some (ip1 :: p1 :: tcaps) := by
  have harr : matchSeq (RElem.lit [a1, a2] :: patTail) ([a1, a2] ++ t) = some tcaps :=
    (matchSeq_lit_cat _ _ _).trans htail
  have hdig : matchSeq (RElem.digitPlus :: RElem.lit [a1, a2] :: patTail)
      (p1 ++ a1 :: a2 :: t) = some (p1 :: tcaps) :=
    matchSeq_digits_block p1 a1 (a2 :: t) _ tcaps hp1ne hp1d ha1d harr
  have hcol : matchSeq (RElem.lit [':'] :: RElem.digitPlus ::
      RElem.lit [a1, a2] :: patTail) ([':'] ++ (p1 ++ a1 :: a2 :: t)) =
      some (p1 :: tcaps) :=
    (matchSeq_lit_cat _ _ _).trans hdig
  have hg := tryAnyF_greedy (fun c => decide (¬ c = '\n'))
    (matchSeq (RElem.lit [':'] :: RElem.digitPlus ::
      RElem.lit [a1, a2] :: patTail))
    (ip1 ++ ':' :: (p1 ++ a1 :: a2 :: t)) ip1.length (p1 :: tcaps)
    (by have := List.length_pos.mpr hip1ne; omega)
    (by rw [List.take_left]; exact predAny_all ip1 hip1nl)
    (by rw [List.drop_left]; exact hcol)
    (ip1 ++ ':' :: (p1 ++ a1 :: a2 :: t)).length
    (by simp)
    (fun k hk1 hk2 _ => by
      have hdrop : List.drop k (ip1 ++ ':' :: (p1 ++ a1 :: a2 :: t)) =
          List.drop (k - ip1.length - 1) (p1 ++ a1 :: a2 :: t) :=
        drop_append_cons_shift ip1 ':' _ k hk1
      rw [hdrop]
      set j := k - ip1.length - 1 with hjdef
      by_cases hj1 : j < p1.length
      · cases hdp : List.drop j p1 with
        | nil =>
          rw [List.drop_eq_nil_iff] at hdp
          omega
        | cons d td =>
          have hdmem : d ∈ p1 := List.drop_subset _ _ (hdp ▸ List.mem_cons_self d td)
          have hdd := hp1d d hdmem
          have heq : List.drop j (p1 ++ a1 :: a2 :: t) =
              d :: (td ++ a1 :: a2 :: t) := by
            rw [List.drop_append_eq_append_drop, hdp,
              Nat.sub_eq_zero_of_le (Nat.le_of_lt hj1), List.drop_zero]
            simp
          rw [heq]
          refine matchSeq_lit_head_ne ':' [] _ _ ?_
          rw [List.head?_cons]
          intro hsome
          rw [Option.some.injEq] at hsome
          rw [hsome] at hdd
          exact absurd hdd (by decide)
      · by_cases hj2 : j = p1.length
        · have heq : List.drop j (p1 ++ a1 :: a2 :: t) = a1 :: a2 :: t := by
            rw [List.drop_append_eq_append_drop, hj2, List.drop_length,
              Nat.sub_self, List.drop_zero, List.nil_append]
          rw [heq]
          refine matchSeq_lit_head_ne ':' [] _ _ ?_
          rw [List.head?_cons]
          intro hsome
          rw [Option.some.injEq] at hsome
          exact ha1c hsome
        · by_cases hj3 : j = p1.length + 1
          · have heq : List.drop j (p1 ++ a1 :: a2 :: t) = a2 :: t := by
              rw [drop_append_cons_shift p1 a1 _ j (by omega), hj3]
              have : p1.length + 1 - p1.length - 1 = 0 := by omega
              rw [this, List.drop_zero]
            rw [heq]
            refine matchSeq_lit_head_ne ':' [] _ _ ?_
            rw [List.head?_cons]
            intro hsome
            rw [Option.some.injEq] at hsome
            exact ha2c hsome
          · have heq : List.drop j (p1 ++ a1 :: a2 :: t) =
                List.drop (j - p1.length - 1 - 1) t := by
              rw [drop_append_cons_shift p1 a1 _ j (by omega)]
              obtain ⟨i, hi⟩ : ∃ i, j - p1.length - 1 = i + 1 :=
                ⟨j - p1.length - 2, by omega⟩
              rw [hi, List.drop_succ_cons]
              congr 1
            rw [heq]
            refine matchSeq_none_missing cstar _
              ⟨[a1, a2], by simp, ?_⟩ _ ?_
            · rcases hstar with h | h <;> simp [h]
            · intro hm
              exact hstart (List.drop_subset _ _ hm))
  rw [List.take_left] at hg
  exact hg

/-- An IP token of a line shape: non-empty and free of the structural
characters that could create a spurious arrow or `|PID=` delimiter, and of
newlines (which `.` does not match). -/
def CleanTok (cs : List Char) : Prop :=
  cs ≠ [] ∧ '<' ∉ cs ∧ '>' ∉ cs ∧ '|' ∉ cs ∧ '\n' ∉ cs

instance (cs : List Char) : Decidable (CleanTok cs) := by
  unfold CleanTok
  infer_instance

/-- A digit token: non-empty, all characters `0`-`9`. -/
def DigitsTok (cs : List Char) : Prop :=
  cs ≠ [] ∧ ∀ c ∈ cs, c.isDigit = true

instance (cs : List Char) : Decidable (DigitsTok cs) := by
  unfold DigitsTok
  infer_instance

/-- The characters of a line of either shape:
`A:p<arrow>B:q|PID=pid CMD=name`, with the arrow given by its two
characters. -/
def mkLineChars (ip1 p1 : List Char) (a1 a2 : Char) (ip2 p2 pid nm : List Char) :
    List Char :=
  ip1 ++ ':' :: (p1 ++ a1 :: a2 ::
    (ip2 ++ ':' :: (p2 ++ '|' :: 'P' :: 'I' :: 'D' :: '=' ::
      (pid ++ ' ' :: 'C' :: 'M' :: 'D' :: '=' :: nm))))

theorem notMem_tail_chars (c : Char) (ip2 p2 pid nm : List Char)
    (hip2 : c ∉ ip2) (hp2 : c ∉ p2) (hpid : c ∉ pid) (hnm : c ∉ nm)
    (hc1 : c ≠ ':') (hc2 : c ≠ '|') (hc3 : c ≠ 'P') (hc4 : c ≠ 'I')
    (hc5 : c ≠ 'D') (hc6 : c ≠ '=') (hc7 : c ≠ ' ') (hc8 : c ≠ 'C')
    (hc9 : c ≠ 'M') :
    c ∉ (ip2 ++ ':' :: (p2 ++ '|' :: 'P' :: 'I' :: 'D' :: '=' ::
      (pid ++ ' ' :: 'C' :: 'M' :: 'D' :: '=' :: nm))) := by
  intro hm
  simp only [List.mem_append, List.mem_cons] at hm
  tauto

theorem notMem_line_chars (c : Char) (ip1 p1 : List Char) (a1 a2 : Char)
    (ip2 p2 pid nm : List Char)
    (hip1 : c ∉ ip1) (hp1 : c ∉ p1) (ha1 : c ≠ a1) (ha2 : c ≠ a2)
    (htail : c ∉ (ip2 ++ ':' :: (p2 ++ '|' :: 'P' :: 'I' :: 'D' :: '=' ::
      (pid ++ ' ' :: 'C' :: 'M' :: 'D' :: '=' :: nm))))
    (hc1 : c ≠ ':') :
    c ∉ mkLineChars ip1 p1 a1 a2 ip2 p2 pid nm := by
  intro hm
  unfold mkLineChars at hm
  simp only [List.mem_append, List.mem_cons] at hm
  rcases hm with h | h | h | h | h | h
  · exact hip1 h
  · exact hc1 h
  · exact hp1 h
  · exact ha1 h
  · exact ha2 h
  · exact htail (by simp only [List.mem_append, List.mem_cons]; tauto)

theorem parseLine_eq_out (line : String) (caps : List (List Char))
    (h : findMatch patOut line.data = some caps) :
    parseLine line = buildLine Direction.Local2Remote caps := by
  unfold parseLine
  rw [h]

theorem parseLine_eq_in (line : String) (caps : List (List Char))
    (hnone : findMatch patOut line.data = none)
    (h : findMatch patIn line.data = some caps) :
    parseLine line = buildLine Direction.Remote2Local caps := by
  unfold parseLine
  rw [hnone, h]

theorem parseLine_eq_none (line : String)
    (h1 : findMatch patOut line.data = none)
    (h2 : findMatch patIn line.data = none) :
    parseLine line = none := by
  unfold parseLine
  rw [h1, h2]

theorem goAtoi_eval (ds : List Char) (hne : ds ≠ [])
    (hb : digitsVal ds ≤ 9223372036854775807) :
    goAtoi ds = some (digitsVal ds) := by
  unfold goAtoi
  rw [if_neg hne, if_pos hb]

theorem buildLine_eval (dir : Direction) (a b c d e f : List Char)
    (vb vd ve : Nat) (hb : goAtoi b = some vb) (hd : goAtoi d = some vd)
    (he : goAtoi e = some ve) :
    buildLine dir [a, b, c, d, e, f] =
      some ⟨dir, String.mk a, vb, String.mk c, vd, ve, String.mk f⟩ := by
  have h0 : buildLine dir [a, b, c, d, e, f] =
      (match goAtoi b, goAtoi d, goAtoi e with
       | some rp, some lp, some pd =>
         some ⟨dir, String.mk a, rp, String.mk c, lp, pd, String.mk f⟩
       | _, _, _ => none) := rfl
  rw [h0, hb, hd, he]

/-- The five hypotheses shared by the two shape theorems, bundled. -/
def ShapeToks (ip1 p1 ip2 p2 pid nm : List Char) : Prop :=
  CleanTok ip1 ∧ DigitsTok p1 ∧ CleanTok ip2 ∧ DigitsTok p2 ∧ DigitsTok pid ∧
  CleanTok nm ∧ digitsVal p1 ≤ 9223372036854775807 ∧
  digitsVal p2 ≤ 9223372036854775807 ∧ digitsVal pid ≤ 9223372036854775807

instance (ip1 p1 ip2 p2 pid nm : List Char) :
    Decidable (ShapeToks ip1 p1 ip2 p2 pid nm) := by
  unfold ShapeToks
  infer_instance

theorem matchSeq_out_line (ip1 p1 ip2 p2 pid nm : List Char)
    (h : ShapeToks ip1 p1 ip2 p2 pid nm) :
    matchSeq patOut (mkLineChars ip1 p1 '<' '-' ip2 p2 pid nm) =
      some [ip1, p1, ip2, p2, pid, nm] := by
  obtain ⟨h1, h2, h3, h4, h5, h6, _, _, _⟩ := h
  exact matchSeq_head_shape '<' '-' ip1 p1 _ [ip2, p2, pid, nm]
    h1.1 h1.2.2.2.2 h2.1 h2.2 (by decide) (by decide) (by decide)
    '<' (Or.inl rfl)
    (notMem_tail_chars '<' ip2 p2 pid nm h3.2.1
      (digits_not_mem p2 h4.2 '<' (by decide))
      (digits_not_mem pid h5.2 '<' (by decide)) h6.2.1
      (by decide) (by decide) (by decide) (by decide) (by decide) (by decide)
      (by decide) (by decide) (by decide))
    (matchSeq_tail_shape ip2 p2 pid nm h3.1 h3.2.2.2.2 h4.1 h4.2 h5.1 h5.2
      h6.1 h6.2.2.2.2 h6.2.2.2.1)

theorem matchSeq_in_line (ip1 p1 ip2 p2 pid nm : List Char)
    (h : ShapeToks ip1 p1 ip2 p2 pid nm) :
    matchSeq patIn (mkLineChars ip1 p1 '-' '>' ip2 p2 pid nm) =
      some [ip1, p1, ip2, p2, pid, nm] := by
  obtain ⟨h1, h2, h3, h4, h5, h6, _, _, _⟩ := h
  exact matchSeq_head_shape '-' '>' ip1 p1 _ [ip2, p2, pid, nm]
    h1.1 h1.2.2.2.2 h2.1 h2.2 (by decide) (by decide) (by decide)
    '>' (Or.inr rfl)
    (notMem_tail_chars '>' ip2 p2 pid nm h3.2.2.1
      (digits_not_mem p2 h4.2 '>' (by decide))
      (digits_not_mem pid h5.2 '>' (by decide)) h6.2.2.1
      (by decide) (by decide) (by decide) (by decide) (by decide) (by decide)
      (by decide) (by decide) (by decide))
    (matchSeq_tail_shape ip2 p2 pid nm h3.1 h3.2.2.2.2 h4.1 h4.2 h5.1 h5.2
      h6.1 h6.2.2.2.2 h6.2.2.2.1)

/-- Claim C2, counterexample: on the spec's own `<-` example line, parsing
succeeds and yields an outbound-from-local observation, but the LOCAL
endpoint is the second pair `10.0.0.9:443`, not the first pair
`10.0.0.5:8080` as the claim states (the first pair is stored as the
remote endpoint, matching the tracer's documented output format). -/
theorem claim2_counterexample :
    (parseLine "10.0.0.5:8080<-10.0.0.9:443|PID=100 CMD=svcA").map
      (fun l => (l.Dir, l.LocalIP, l.LocalPort, l.RemoteIP, l.RemotePort)) =
      some (Direction.Local2Remote, "10.0.0.9", 443, "10.0.0.5", 8080) ∧
    ("10.0.0.9" : String) ≠ ("10.0.0.5" : String) :=
  ⟨rfl, by decide⟩

/-- Claim C2, amended: for every line of the shape
`A:p<-B:q|PID=pid CMD=name` (with well-behaved tokens: IPs and name free of
newline and of the structural characters, ports and pid non-empty digit
strings whose values fit in a signed 64-bit integer), parsing yields an
outbound-from-local observation whose REMOTE endpoint is the first pair
(A, p) and whose LOCAL endpoint is the second pair (B, q); for every line
of the shape `A:p->B:q|PID=pid CMD=name`, parsing yields an
inbound-to-local observation whose remote endpoint is again the first pair
and whose local endpoint the second; and any line matched by neither
pattern is rejected. -/
theorem claim2_line_shapes :
    (∀ ip1 p1 ip2 p2 pid nm : List Char, ShapeToks ip1 p1 ip2 p2 pid nm →
      parseLine (String.mk (mkLineChars ip1 p1 '<' '-' ip2 p2 pid nm)) =
        some ⟨Direction.Local2Remote, String.mk ip1, digitsVal p1,
          String.mk ip2, digitsVal p2, digitsVal pid, String.mk nm⟩) ∧
    (∀ ip1 p1 ip2 p2 pid nm : List Char, ShapeToks ip1 p1 ip2 p2 pid nm →
      parseLine (String.mk (mkLineChars ip1 p1 '-' '>' ip2 p2 pid nm)) =
        some ⟨Direction.Remote2Local, String.mk ip1, digitsVal p1,
          String.mk ip2, digitsVal p2, digitsVal pid, String.mk nm⟩) ∧
    (∀ line : String, findMatch patOut line.data = none →
      findMatch patIn line.data = none → parseLine line = none) := by
  refine ⟨?_, ?_, parseLine_eq_none⟩
  · intro ip1 p1 ip2 p2 pid nm h
    have hfm : findMatch patOut
        (String.mk (mkLineChars ip1 p1 '<' '-' ip2 p2 pid nm)).data =
        some [ip1, p1, ip2, p2, pid, nm] :=
      findMatch_of_matchSeq _ _ _ (matchSeq_out_line ip1 p1 ip2 p2 pid nm h)
    rw [parseLine_eq_out _ _ hfm]
    obtain ⟨h1, h2, h3, h4, h5, h6, hb1, hb2, hb3⟩ := h
    exact buildLine_eval _ _ _ _ _ _ _ _ _ _
      (goAtoi_eval p1 h2.1 hb1) (goAtoi_eval p2 h4.1 hb2)
      (goAtoi_eval pid h5.1 hb3)
  · intro ip1 p1 ip2 p2 pid nm h
    have hnone : findMatch patOut
        (String.mk (mkLineChars ip1 p1 '-' '>' ip2 p2 pid nm)).data = none := by
      refine findMatch_none_missing '<' patOut ⟨['<', '-'], by decide, by decide⟩ _ ?_
      obtain ⟨h1, h2, h3, h4, h5, h6, _, _, _⟩ := h
      exact notMem_line_chars '<' ip1 p1 '-' '>' ip2 p2 pid nm
        h1.2.1 (digits_not_mem p1 h2.2 '<' (by decide)) (by decide) (by decide)
        (notMem_tail_chars '<' ip2 p2 pid nm h3.2.1
          (digits_not_mem p2 h4.2 '<' (by decide))
          (digits_not_mem pid h5.2 '<' (by decide)) h6.2.1
          (by decide) (by decide) (by decide) (by decide) (by decide)
          (by decide) (by decide) (by decide) (by decide))
        (by decide)
    have hfm : findMatch patIn
        (String.mk (mkLineChars ip1 p1 '-' '>' ip2 p2 pid nm)).data =
        some [ip1, p1, ip2, p2, pid, nm] :=
      findMatch_of_matchSeq _ _ _ (matchSeq_in_line ip1 p1 ip2 p2 pid nm h)
    rw [parseLine_eq_in _ _ hnone hfm]
    obtain ⟨h1, h2, h3, h4, h5, h6, hb1, hb2, hb3⟩ := h
    exact buildLine_eval _ _ _ _ _ _ _ _ _ _
      (goAtoi_eval p1 h2.1 hb1) (goAtoi_eval p2 h4.1 hb2)
      (goAtoi_eval pid h5.1 hb3)

/-- Witness for C2 (amended): the theorem applied to the concrete tokens of
the two example lines and to a shapeless line. -/
theorem claim2_witness :
    parseLine "10.0.0.5:8080<-10.0.0.9:443|PID=100 CMD=svcA" =
      some ⟨Direction.Local2Remote, "10.0.0.5", 8080, "10.0.0.9", 443, 100, "svcA"⟩ ∧
    parseLine "10.0.0.9:443->10.0.0.5:8080|PID=200 CMD=svcB" =
      some ⟨Direction.Remote2Local, "10.0.0.9", 443, "10.0.0.5", 8080, 200, "svcB"⟩ ∧
    parseLine "garbage" = none :=
  ⟨claim2_line_shapes.1 "10.0.0.5".data "8080".data "10.0.0.9".data
      "443".data "100".data "svcA".data (by decide),
   claim2_line_shapes.2.1 "10.0.0.9".data "443".data "10.0.0.5".data
      "8080".data "200".data "svcB".data (by decide),
   claim2_line_shapes.2.2 "garbage" rfl rfl⟩

/-! ## Claim C9: every edge references process ids present in the node store -/

/-- Every edge's source and destination process id has a node record. -/
def EdgesClosed (s : CorrState) : Prop :=
  ∀ e ∈ s.edges, (alookup s.nodes e.Source.PID).isSome ∧
    (alookup s.nodes e.Dest.PID).isSome

/-- Every registered endpoint owner has a node record. -/
def RegistryClosed (s : CorrState) : Prop :=
  ∀ ep pid, alookup s.knownEndpoints ep = some pid →
    (alookup s.nodes pid).isSome

theorem upsertNode_mono (l : InputLine) (nodes nodes2 : List (Nat × ProcessEndpoints))
    (h : upsertNode l nodes = Except.ok nodes2) (k : Nat)
    (hk : (alookup nodes k).isSome) : (alookup nodes2 k).isSome := by
  cases hl : alookup nodes l.ProcessID with
  | none =>
    rw [upsertNode_new l nodes hl] at h
    cases h
    exact alookup_aupsert_isSome _ _ _ _ hk
  | some n =>
    rw [upsertNode_known l nodes n hl] at h
    by_cases h1 : n.LocalIP ≠ l.LocalIP
    · rw [if_pos h1] at h; cases h
    rw [if_neg h1] at h
    by_cases h2 : n.ProcessID ≠ l.ProcessID
    · rw [if_pos h2] at h; cases h
    rw [if_neg h2] at h
    by_cases h3 : n.ProcessName ≠ l.ProcessName
    · rw [if_pos h3] at h; cases h
    rw [if_neg h3] at h
    cases h
    exact alookup_aupsert_isSome _ _ _ _ hk

theorem mkEdge_pids (l : InputLine) (rpid : Nat) :
    ((mkEdge l rpid).Source.PID = l.ProcessID ∧ (mkEdge l rpid).Dest.PID = rpid) ∨
    ((mkEdge l rpid).Source.PID = rpid ∧ (mkEdge l rpid).Dest.PID = l.ProcessID) := by
  unfold mkEdge
  by_cases h : l.Dir = Direction.Remote2Local
  · right
    rw [if_pos h]
    exact ⟨rfl, rfl⟩
  · left
    rw [if_neg h]
    exact ⟨rfl, rfl⟩

theorem step_preserves_closed (l : InputLine) (s s' : CorrState)
    (h : step l s = Except.ok s')
    (hreg : RegistryClosed s) (hedg : EdgesClosed s) :
    RegistryClosed s' ∧ EdgesClosed s' := by
  obtain ⟨nodes2, ke2, hn, hk, hs⟩ := step_decompose l s s' h
  subst hs
  have hmono : ∀ k, (alookup s.nodes k).isSome → (alookup nodes2 k).isSome :=
    fun k hk2 => upsertNode_mono l s.nodes nodes2 hn k hk2
  have hself : (alookup nodes2 l.ProcessID).isSome := by
    obtain ⟨n2, hl, _⟩ := upsertNode_ok_lookup l s.nodes nodes2 hn
    rw [hl]
    rfl
  have hreg2 : RegistryClosed ⟨nodes2, ke2, resolveEdge l ke2 s.edges⟩ := by
    intro ep pid hep
    cases hl : alookup s.knownEndpoints ⟨l.LocalIP, l.LocalPort⟩ with
    | none =>
      rw [registerLocalEp_new l s.knownEndpoints hl] at hk
      cases hk
      by_cases hx : (⟨l.LocalIP, l.LocalPort⟩ : NetworkEndpoint) = ep
      · subst hx
        rw [alookup_aupsert_self] at hep
        cases hep
        exact hself
      · rw [alookup_aupsert_ne _ _ _ _ hx] at hep
        exact hmono pid (hreg ep pid hep)
    | some e =>
      rw [registerLocalEp_known l s.knownEndpoints e hl] at hk
      by_cases he : e ≠ l.ProcessID
      · rw [if_pos he] at hk; cases hk
      · rw [if_neg he] at hk
        cases hk
        exact hmono pid (hreg ep pid hep)
  refine ⟨hreg2, ?_⟩
  intro e he
  cases hr : alookup ke2 ⟨l.RemoteIP, l.RemotePort⟩ with
  | none =>
    rw [resolveEdge_none l ke2 s.edges hr] at he
    obtain ⟨h1, h2⟩ := hedg e he
    exact ⟨hmono _ h1, hmono _ h2⟩
  | some rpid =>
    rw [resolveEdge_some l ke2 s.edges rpid hr] at he
    have hrp : (alookup nodes2 rpid).isSome := hreg2 _ _ hr
    by_cases hmem : mkEdge l rpid ∈ s.edges
    · rw [if_pos hmem] at he
      obtain ⟨h1, h2⟩ := hedg e he
      exact ⟨hmono _ h1, hmono _ h2⟩
    · rw [if_neg hmem] at he
      rcases List.mem_append.mp he with hold | hnew
      · obtain ⟨h1, h2⟩ := hedg e hold
        exact ⟨hmono _ h1, hmono _ h2⟩
      · have : e = mkEdge l rpid := by simpa using hnew
        subst this
        rcases mkEdge_pids l rpid with ⟨hsrc, hdst⟩ | ⟨hsrc, hdst⟩
        · rw [hsrc, hdst]
          exact ⟨hself, hrp⟩
        · rw [hsrc, hdst]
          exact ⟨hrp, hself⟩

theorem processText_preserves_closed (line : String) (s s2 : CorrState)
    (h : processText line s = Except.ok s2)
    (hc : RegistryClosed s ∧ EdgesClosed s) :
    RegistryClosed s2 ∧ EdgesClosed s2 := by
  cases hp : parseLine line with
  | none =>
    rw [processText_none line s hp] at h
    cases h
    exact hc
  | some l =>
    rw [processText_some line s l hp] at h
    by_cases hv : IsValidLine l = true
    · rw [processParsed_valid l s hv] at h
      exact step_preserves_closed l s s2 h hc.1 hc.2
    · rw [processParsed_invalid l s (by simpa using hv)] at h
      cases h
      exact hc

theorem processAll_cons_ok (line : String) (rest : List String)
    (s s2 : CorrState) (h : processText line s = Except.ok s2) :
    processAll (line :: rest) s = processAll rest s2 := by
  have he : processAll (line :: rest) s =
      match processText line s with
      | Except.error e => Except.error e
      | Except.ok s2 => processAll rest s2 := rfl
  rw [he, h]

theorem processAll_cons_err (line : String) (rest : List String)
    (s : CorrState) (e : String) (h : processText line s = Except.error e) :
    processAll (line :: rest) s = Except.error e := by
  have he : processAll (line :: rest) s =
      match processText line s with
      | Except.error e => Except.error e
      | Except.ok s2 => processAll rest s2 := rfl
  rw [he, h]

theorem processAll_preserves_closed (lines : List String) :
    ∀ s s' : CorrState, processAll lines s = Except.ok s' →
      RegistryClosed s ∧ EdgesClosed s → RegistryClosed s' ∧ EdgesClosed s' := by
  induction lines with
  | nil =>
    intro s s' h hc
    cases h
    exact hc
  | cons line rest ih =>
    intro s s' h hc
    cases hq : processText line s with
    | error e => rw [processAll_cons_err line rest s e hq] at h; cases h
    | ok s2 =>
      rw [processAll_cons_ok line rest s s2 hq] at h
      exact ih s2 s' h (processText_preserves_closed line s s2 hq hc)

/-- Claim C9: after processing any list of input lines from the empty
stores (hence at every intermediate point of a run, each being the result
of processing a prefix), every Edge in the edge set references only process
ids that are present in the node store: both its source and its destination
process id have ProcessNode records.  The local process is upserted before
its edge is drawn, and resolved remote pids come from the registry, whose
owners always have node records. -/
theorem claim9_edges_reference_nodes (lines : List String) (s' : CorrState)
    (h : processAll lines emptyState = Except.ok s') :
    ∀ e ∈ s'.edges, (alookup s'.nodes e.Source.PID).isSome ∧
      (alookup s'.nodes e.Dest.PID).isSome := by
  have hc : RegistryClosed emptyState ∧ EdgesClosed emptyState := by
    constructor
    · intro ep pid hep
      simp [emptyState, alookup] at hep
    · intro e he
      simp [emptyState] at he
  exact (processAll_preserves_closed lines emptyState s' h hc).2

/-- Witness for C9: in the final state of a concrete two-line run both
process ids on the single recorded edge have node entries. -/
theorem claim9_witness :
    (alookup [(3, ProcessEndpoints.mk 3 "a" "5.6.7.8" [2]),
      (9, ProcessEndpoints.mk 9 "b" "1.2.3.4" [1])] 9).isSome ∧
    (alookup [(3, ProcessEndpoints.mk 3 "a" "5.6.7.8" [2]),
      (9, ProcessEndpoints.mk 9 "b" "1.2.3.4" [1])] 3).isSome :=
  claim9_edges_reference_nodes
    ["1.2.3.4:1->5.6.7.8:2|PID=3 CMD=a", "5.6.7.8:2<-1.2.3.4:1|PID=9 CMD=b"]
    ⟨[(3, ⟨3, "a", "5.6.7.8", [2]⟩), (9, ⟨9, "b", "1.2.3.4", [1]⟩)],
     [(⟨"5.6.7.8", 2⟩, 3), (⟨"1.2.3.4", 1⟩, 9)],
     [⟨⟨9, 1⟩, ⟨3, 2⟩⟩]⟩
    rfl ⟨⟨9, 1⟩, ⟨3, 2⟩⟩ (by decide)

/-! ## Claim C10: self-loop edges are recorded -/

/-- Two accepted lines for one process whose second observation's remote
endpoint is the local endpoint the first line registered for the same
process. -/
def c10Lines : List String :=
  ["10.0.0.1:80->10.0.0.1:90|PID=5 CMD=x",
   "10.0.0.1:90->10.0.0.1:80|PID=5 CMD=x"]

/-- Claim C10: self-loop edges are not suppressed.  For the sequence
`c10Lines` — where pid 5 first registers its local endpoint
`10.0.0.1:90` and the second line's remote endpoint resolves to that same
registration — the correlator records an edge whose source and destination
process ids are both 5. -/
theorem claim10_self_loop :
    processAll c10Lines emptyState =
      Except.ok ⟨[(5, ⟨5, "x", "10.0.0.1", [90, 80]⟩)],
        [(⟨"10.0.0.1", 90⟩, 5), (⟨"10.0.0.1", 80⟩, 5)],
        [⟨⟨5, 90⟩, ⟨5, 80⟩⟩]⟩ ∧
    (Edge.mk ⟨5, 90⟩ ⟨5, 80⟩).Source.PID = (Edge.mk ⟨5, 90⟩ ⟨5, 80⟩).Dest.PID := by
  exact ⟨rfl, rfl⟩

end NetVisualizer
